import Mathlib

/-!
Verification development for the storefront repository: a shallow embedding of
the cart reconciliation engine, the Vendure remote-client wrapper, the checkout
state machine handlers, and the Stripe webhook reconciler, together with
theorems settling the specification claims about them.

Remote interactions are modelled by a finite script of responses consumed in
call order; every remote call the code issues is recorded in a trace, so that
temporal claims (how often a call is made, in what order) become statements
about the trace.
-/

/-- JS truthiness for an optional string: a || b where the empty string and
undefined are falsy. -/
def jsOr (a b : Option String) : Option String :=
  match a with
  | some s => if s = "" then b else some s
  | none => b

/-- JS a || b for a possibly-missing string with a string default. -/
def jsOrStr (a : Option String) (b : String) : String :=
  match a with
  | some s => if s = "" then b else s
  | none => b

/-- Whether a character list starts with the given pattern. -/
def listStartsWith : List Char → List Char → Bool
  | _, [] => true
  | [], _ :: _ => false
  | c :: cs, p :: ps => c == p && listStartsWith cs ps

/-- Whether a character list contains the given pattern as a contiguous
subsequence. -/
def listContains : List Char → List Char → Bool
  | [], pat => pat.isEmpty
  | c :: cs, pat => listStartsWith (c :: cs) pat || listContains cs pat

/-- Substring test, used to embed the JS String.includes checks on error
messages. -/
def containsSub (s pat : String) : Bool :=
  listContains s.data pat.data

/-- Whether an id is a temporary local id as minted by the optimistic add. -/
def isTempId (s : String) : Bool :=
  listStartsWith s.data ("temp-".data)

/-- CartItem as held by the cart engine: server line id or temporary local id,
variant data, quantity, unit price and line total in minor currency units. -/
structure CartItem where
  id : String
  variantId : String
  name : String
  variantName : String
  quantity : Int
  price : Int
  lineTotal : Int
  image : Option String
deriving Repr, DecidableEq, BEq

/-- Product data carried on a Vendure order line. -/
structure ProductInfo where
  name : String
  slug : String
  featuredAsset : Option String
deriving Repr, DecidableEq

/-- Variant data carried on a Vendure order line. -/
structure OrderVariant where
  id : String
  name : String
  priceWithTax : Int
  featuredAsset : Option String
  product : ProductInfo
deriving Repr, DecidableEq

/-- A line of the authoritative remote order. -/
structure OrderLine where
  id : String
  quantity : Int
  linePriceWithTax : Int
  productVariant : OrderVariant
deriving Repr, DecidableEq

/-- The authoritative remote order as fetched by getActiveOrder. -/
structure Order where
  id : String
  code : String
  state : String
  totalWithTax : Int
  totalQuantity : Int
  lines : List OrderLine
deriving Repr, DecidableEq

/-- The remote operations the shop-side code issues through the Vendure
client, keyed exactly as the code keys them: add is keyed by variant id,
adjust and remove by line id. -/
inductive RemoteCall where
  | getActiveOrder
  | addItem (variantId : String) (quantity : Int)
  | adjustLine (lineId : String) (quantity : Int)
  | removeLine (lineId : String)
  | resetToAddingItems
deriving Repr, DecidableEq, BEq

/-- A scripted response to one remote call: an active-order payload, a
successful mutation payload, a GraphQL ErrorResult in the data (which does not
throw), or a thrown error (network failure or non-empty GraphQL errors list,
which the query wrapper turns into an exception). -/
inductive RemoteResp where
  | activeOrder (o : Option Order)
  | mutationOk (o : Order)
  | mutationErr (errorCode message : String)
  | netThrow (message : String)
deriving Repr, DecidableEq, BEq

/-- The remote environment: the script of pending responses, the trace of
calls issued so far, and the clock read by Date.now for temporary ids. -/
structure Env where
  script : List RemoteResp
  trace : List RemoteCall
  time : Nat
deriving Repr, DecidableEq

/-- Issue one remote call: record it in the trace and consume the next
scripted response; an exhausted script behaves as a thrown network error. -/
def callRemote (c : RemoteCall) (e : Env) : RemoteResp × Env :=
  match e.script with
  | [] => (RemoteResp.netThrow "no response", { e with trace := e.trace ++ [c] })
  | r :: rest => (r, { e with script := rest, trace := e.trace ++ [c] })

/-- View a response as the result of getActiveOrder: a thrown error
propagates; any payload without an activeOrder field reads as undefined,
which the code treats as no active order. -/
def asActiveOrder : RemoteResp → Except String (Option Order)
  | RemoteResp.activeOrder o => Except.ok o
  | RemoteResp.netThrow m => Except.error m
  | _ => Except.ok none

/-- View a response as the result of a mutation returning an Order or an
ErrorResult union: ok-with-order models the id-in-result branch, ok-with-error
the ErrorResult branch, and error a thrown exception. -/
def asMutation : RemoteResp → Except String (Order ⊕ (String × String))
  | RemoteResp.mutationOk o => Except.ok (Sum.inl o)
  | RemoteResp.mutationErr c m => Except.ok (Sum.inr (c, m))
  | RemoteResp.netThrow m => Except.error m
  | RemoteResp.activeOrder _ => Except.error "TypeError"

/-- The cart engine state: in-memory items and totals, the localStorage
record, and the cart-open flag. -/
structure CartState where
  items : List CartItem
  total : Int
  quantity : Int
  storage : Option (List CartItem)
  isCartOpen : Bool
deriving Repr, DecidableEq

/-- Sum of lineTotal over the items, as the reduce call computes it. -/
def sumLineTotals (items : List CartItem) : Int :=
  items.foldl (fun s i => s + i.lineTotal) 0

/-- Sum of quantity over the items, as the reduce call computes it. -/
def sumQuantities (items : List CartItem) : Int :=
  items.foldl (fun s i => s + i.quantity) 0

/-- Install a new item list and recompute both totals from it, as every local
mutation of the engine does. -/
def withItems (s : CartState) (items : List CartItem) : CartState :=
  { s with items := items, total := sumLineTotals items, quantity := sumQuantities items }

/-- saveToStorage: writes the in-memory items to the storage record only when
the item list is non-empty. -/
def saveToStorage (s : CartState) : CartState :=
  if s.items.isEmpty then s else { s with storage := some s.items }

/-- loadFromStorage: the stored record, or the empty list when absent. -/
def loadFromStorage (s : CartState) : List CartItem :=
  s.storage.getD []

/-- clearStorage: removes the storage record. -/
def clearStorage (s : CartState) : CartState :=
  { s with storage := none }

/-- Mapping of one remote order line to a CartItem, exactly as the sync code
maps it: image falls back from the product asset to the variant asset. -/
def mapLine (l : OrderLine) : CartItem :=
  { id := l.id
    variantId := l.productVariant.id
    name := l.productVariant.product.name
    variantName := l.productVariant.name
    quantity := l.quantity
    price := l.productVariant.priceWithTax
    lineTotal := l.linePriceWithTax
    image := jsOr l.productVariant.product.featuredAsset l.productVariant.featuredAsset }

/-- Adoption of server truth: replace items by the mapped lines, take the
totals from the order fields, and back up to storage. -/
def adoptOrder (o : Order) (s : CartState) : CartState :=
  saveToStorage
    { s with
      items := o.lines.map mapLine
      total := o.totalWithTax
      quantity := o.totalQuantity }

/-- The restore loop of syncCart: each stored item is replayed as a remote
add keyed by variant id; every response, failure or not, is ignored. -/
def replayItems (items : List CartItem) (e : Env) : Env :=
  items.foldl (fun e i => (callRemote (RemoteCall.addItem i.variantId i.quantity) e).2) e

/-- The items the session-recovery path of syncCart will replay: the stored
record when it has items, otherwise the in-memory snapshot. -/
def itemsToRestoreOf (s : CartState) : List CartItem :=
  let stored := loadFromStorage s
  if stored.isEmpty then s.items else stored

/-- The authoritatively-empty local state syncCart installs when there is
neither an active order nor anything to restore. -/
def clearedCart (s : CartState) : CartState :=
  { s with items := [], total := 0, quantity := 0, storage := none }

/-- The no-active-order continuation of syncCart: replay the restorable items
one at a time, re-fetch and adopt server truth when the re-fetch finds an
order; with nothing to restore, install the authoritatively-empty cart. -/
def syncRestore (s : CartState) (e : Env) : CartState × Env :=
  let itemsToRestore := itemsToRestoreOf s
  if itemsToRestore.isEmpty then
    (clearedCart s, e)
  else
    let e := replayItems itemsToRestore e
    let (r2, e) := callRemote RemoteCall.getActiveOrder e
    match asActiveOrder r2 with
    | Except.ok (some o) => (adoptOrder o s, e)
    | _ => (s, e)

/-- syncCart: fetch the active order; adopt it if present; otherwise replay
stored (or in-memory) items one at a time and re-fetch, or clear everything
when there is nothing to restore. A thrown fetch leaves the state unchanged. -/
def syncCart (s : CartState) (e : Env) : CartState × Env :=
  let (r, e) := callRemote RemoteCall.getActiveOrder e
  match asActiveOrder r with
  | Except.error _ => (s, e)
  | Except.ok (some o) => (adoptOrder o s, e)
  | Except.ok none => syncRestore s e

/-- The optional product info passed to the engine add for the optimistic
update. -/
structure ProdInfo where
  name : String
  price : Int
  image : Option String
deriving Repr, DecidableEq

/-- Result of the engine add operation. -/
structure AddResult where
  success : Bool
  error : Option String
deriving Repr, DecidableEq

/-- The optimistic phase of addToCart: merge into the existing line for the
variant or append a temporary line, recompute totals, persist to storage. -/
def applyOptimisticAdd (variantId : String) (qty : Int) (info : ProdInfo)
    (now : Nat) (s : CartState) : CartState :=
  let items :=
    match s.items.findIdx? (fun it => it.variantId == variantId) with
    | some i =>
      match s.items.get? i with
      | some it =>
        s.items.set i
          { it with
            quantity := it.quantity + qty
            lineTotal := (it.quantity + qty) * it.price }
      | none => s.items
    | none =>
      s.items ++
        [{ id := "temp-" ++ toString now
           variantId := variantId
           name := info.name
           variantName := info.name
           quantity := qty
           price := info.price
           lineTotal := info.price * qty
           image := info.image }]
  saveToStorage (withItems s items)

/-- The stuck-order test applied to remote error messages. -/
def stuckMsg (m : String) : Bool :=
  containsSub m "AddingItems" || containsSub m "may only be modified"

/-- The outer catch branch of addToCart: on a stuck-state exception message,
reset and retry once inside an inner try (whose own failures are swallowed);
in every non-success path, roll back via sync and report a generic failure. -/
def addCatch (variantId : String) (qty : Int) (errorMsg : String)
    (s : CartState) (e : Env) : CartState × Env × AddResult :=
  if stuckMsg errorMsg then
    let (rr, e) := callRemote RemoteCall.resetToAddingItems e
    match asMutation rr with
    | Except.error _ =>
      let (s, e) := syncCart s e
      (s, e, ⟨false, some "Failed to add item to cart"⟩)
    | Except.ok _ =>
      let (r2, e) := callRemote (RemoteCall.addItem variantId qty) e
      match asMutation r2 with
      | Except.ok (Sum.inl _) =>
        let (s, e) := syncCart s e
        (s, e, ⟨true, none⟩)
      | _ =>
        let (s, e) := syncCart s e
        (s, e, ⟨false, some "Failed to add item to cart"⟩)
  else
    let (s, e) := syncCart s e
    (s, e, ⟨false, some "Failed to add item to cart"⟩)

/-- The state of the cart after the optimistic phase of addToCart and the
opening of the cart drawer, before any remote interaction. -/
def optimisticAddState (variantId : String) (qty : Int) (info : Option ProdInfo)
    (now : Nat) (s : CartState) : CartState :=
  let s :=
    match info with
    | some pi => applyOptimisticAdd variantId qty pi now s
    | none => s
  { s with isCartOpen := true }

/-- The engine addToCart: optimistic local update, remote add, one-shot
reset-and-retry on a stuck-state ErrorResult, rollback via sync otherwise;
thrown errors divert to the catch branch. -/
def addToCart (variantId : String) (qty : Int) (info : Option ProdInfo)
    (s : CartState) (e : Env) : CartState × Env × AddResult :=
  let s := optimisticAddState variantId qty info e.time s
  let (r, e) := callRemote (RemoteCall.addItem variantId qty) e
  match asMutation r with
  | Except.ok (Sum.inl _) =>
    let (s, e) := syncCart s e
    (s, e, ⟨true, none⟩)
  | Except.ok (Sum.inr (_, msg)) =>
    if stuckMsg msg then
      let (rr, e) := callRemote RemoteCall.resetToAddingItems e
      match asMutation rr with
      | Except.error em => addCatch variantId qty em s e
      | Except.ok _ =>
        let (r2, e) := callRemote (RemoteCall.addItem variantId qty) e
        match asMutation r2 with
        | Except.ok (Sum.inl _) =>
          let (s, e) := syncCart s e
          (s, e, ⟨true, none⟩)
        | Except.ok (Sum.inr _) =>
          let (s, e) := syncCart s e
          (s, e, ⟨false, some msg⟩)
        | Except.error em2 => addCatch variantId qty em2 s e
    else
      let (s, e) := syncCart s e
      (s, e, ⟨false, some msg⟩)
  | Except.error em => addCatch variantId qty em s e

/-- The optimistic phase of updateQuantity: a non-positive quantity removes
the line, otherwise the line is updated in place; totals recomputed. -/
def applyOptimisticUpdate (lineId : String) (qty : Int) (s : CartState) : CartState :=
  match s.items.findIdx? (fun it => it.id == lineId) with
  | some i =>
    let items :=
      if qty ≤ 0 then s.items.eraseIdx i
      else
        match s.items.get? i with
        | some it => s.items.set i { it with quantity := qty, lineTotal := it.price * qty }
        | none => s.items
    withItems s items
  | none => s

/-- The engine updateQuantity: optimistic update, then the remote adjust or
remove keyed by the given line id; both the success path and the catch path
continue with a sync. -/
def updateQuantity (lineId : String) (qty : Int) (s : CartState) (e : Env) :
    CartState × Env :=
  let s := applyOptimisticUpdate lineId qty s
  let (_, e) :=
    callRemote (if qty ≤ 0 then RemoteCall.removeLine lineId
                else RemoteCall.adjustLine lineId qty) e
  syncCart s e

/-- The item the optimistic removal takes out, kept for the local rollback of
the catch branch. -/
def removedItemOf (lineId : String) (s : CartState) : Option CartItem :=
  (s.items.findIdx? (fun it => it.id == lineId)).bind (fun i => s.items.get? i)

/-- The optimistic phase of removeFromCart: drop the line and recompute the
totals. -/
def applyOptimisticRemove (lineId : String) (s : CartState) : CartState :=
  match s.items.findIdx? (fun it => it.id == lineId) with
  | some i => withItems s (s.items.eraseIdx i)
  | none => s

/-- The engine removeFromCart: optimistic removal, remote remove keyed by the
given line id; on success (including an ErrorResult payload) the state is
re-derived by sync, but on a thrown error the removed item is pushed back
locally and no sync happens. -/
def removeFromCart (lineId : String) (s : CartState) (e : Env) : CartState × Env :=
  let removed := removedItemOf lineId s
  let s := applyOptimisticRemove lineId s
  let (r, e) := callRemote (RemoteCall.removeLine lineId) e
  match r with
  | RemoteResp.netThrow _ =>
    match removed with
    | some it => (withItems s (s.items ++ [it]), e)
    | none => (s, e)
  | _ => syncCart s e

/-- Checkout state as held by the checkout page: the numeric step (1 contact,
2 shipping, 3 payment, 4 confirmed), the open flag, the inline error, and
whether the Stripe payment and address widgets are mounted. -/
structure CheckoutState where
  step : Nat
  isCheckoutOpen : Bool
  checkoutError : String
  paymentElement : Bool
  addressElement : Bool
deriving Repr, DecidableEq

/-- destroyPaymentElement: releases the payment widget; safe to call when
nothing is mounted. -/
def destroyPaymentElement (c : CheckoutState) : CheckoutState :=
  { c with paymentElement := false }

/-- goBackFromPayment: inside a try, issue the reset-to-AddingItems transition
and then destroy the payment widget; a thrown reset is only logged, so the
destroy is skipped; either way the step returns to shipping and the address
widget is re-created. -/
def goBackFromPayment (c : CheckoutState) (e : Env) : CheckoutState × Env :=
  let (r, e) := callRemote RemoteCall.resetToAddingItems e
  let c :=
    match asMutation r with
    | Except.error _ => c
    | Except.ok _ => destroyPaymentElement c
  ({ c with step := 2, addressElement := true }, e)

/-- closeCheckout: when the step is payment or later, issue the reset
transition and destroy the payment widget with the same try-catch shape as
the back navigation; then close the dialog and clear the inline error. -/
def closeCheckout (c : CheckoutState) (e : Env) : CheckoutState × Env :=
  if 3 ≤ c.step then
    let (r, e) := callRemote RemoteCall.resetToAddingItems e
    let c :=
      match asMutation r with
      | Except.error _ => c
      | Except.ok _ => destroyPaymentElement c
    ({ c with isCheckoutOpen := false, checkoutError := "" }, e)
  else
    ({ c with isCheckoutOpen := false, checkoutError := "" }, e)

/-- Result of the Stripe payment confirmation as the page consumes it. -/
structure PayResult where
  success : Bool
  requiresRedirect : Bool
  error : Option String
deriving Repr, DecidableEq

/-- The completion signal of the payment poll: no active order, or an order
in PaymentSettled or PaymentAuthorized state. -/
def isCompleteSignal (o : Option Order) : Bool :=
  match o with
  | none => true
  | some ord => ord.state == "PaymentSettled" || ord.state == "PaymentAuthorized"

/-- The fixed attempt budget of the payment-confirmation poll. -/
def maxAttempts : Nat := 10

/-- The polling loop of completeOrder: up to the given number of active-order
fetches, stopping at the first completion signal; a thrown fetch propagates
as an exception. -/
def pollLoop : Nat → Env → Except String Unit × Env
  | 0, e => (Except.ok (), e)
  | fuel + 1, e =>
    let (r, e) := callRemote RemoteCall.getActiveOrder e
    match asActiveOrder r with
    | Except.error m => (Except.error m, e)
    | Except.ok o =>
      if isCompleteSignal o then (Except.ok (), e) else pollLoop fuel e

/-- completeOrder: confirm the payment; a redirect-based flow returns without
touching state; an immediate success polls for settlement with the fixed
budget and then, regardless of whether completion was observed, destroys the
payment widget, moves to the confirmed step, clears the stored cart and
re-syncs; payment failure or a thrown poll fetch surfaces the error and
leaves the step unchanged. -/
def completeOrder (pay : PayResult) (c : CheckoutState) (cart : CartState)
    (e : Env) : CheckoutState × CartState × Env :=
  let c := { c with checkoutError := "" }
  if !pay.success then
    ({ c with checkoutError := jsOrStr pay.error "Payment failed" }, cart, e)
  else if pay.requiresRedirect then
    (c, cart, e)
  else
    match pollLoop maxAttempts e with
    | (Except.error m, e) => ({ c with checkoutError := m }, cart, e)
    | (Except.ok _, e) =>
      let c := destroyPaymentElement c
      let c := { c with step := 4 }
      let cart := clearStorage cart
      let (cart, e) := syncCart cart e
      (c, cart, e)

/-- One raw response to the GraphQL query wrapper: the optional rotated
credential in the response header, the optional data payload, and the list of
GraphQL error messages. -/
structure GqlResponse (D : Type) where
  authHeader : Option String
  payload : Option D
  errors : List String
deriving Repr, DecidableEq

/-- The query wrapper of the Vendure client: reads the session credential
from the response header and persists it if present, then throws the first
error message when the errors list is non-empty and returns the data payload
otherwise. The first component is the stored credential after the call. -/
def query {D : Type} (stored : Option String) (resp : GqlResponse D) :
    Option String × Except String (Option D) :=
  let stored :=
    match resp.authHeader with
    | some t => some t
    | none => stored
  if resp.errors.isEmpty then (stored, Except.ok resp.payload)
  else (stored, Except.error (jsOrStr resp.errors.head? "Unknown GraphQL error"))

/-- An order as the webhook reconciler reads it through the admin API. -/
structure AdminOrder where
  id : String
  code : String
  state : String
deriving Repr, DecidableEq

/-- The admin-API operations the webhook reconciler issues, in the order the
code issues them. -/
inductive AdminCall where
  | login
  | getOrderByCode (code : String)
  | setCustomerForDraftOrder (orderId : String)
  | setDraftOrderShippingAddress (orderId : String)
  | eligibleShippingMethods (orderId : String)
  | setDraftOrderShippingMethod (orderId methodId : String)
  | transitionToArrangingPayment (orderId : String)
  | addManualPaymentToOrder (orderId transactionId : String)
deriving Repr, DecidableEq, BEq

/-- Scripted admin-API responses: a login with or without a rotated token,
an order query result, a generic ignored payload, the eligible shipping
methods, the manual-payment result (order state or error code), or a thrown
fetch error. -/
inductive AdminResp where
  | loginOk (token : String)
  | loginFail
  | orders (items : List AdminOrder)
  | genericOk
  | eligible (methodIds : List String)
  | payment (state : Option String) (errorCode : Option String)
  | netThrow (message : String)
deriving Repr, DecidableEq, BEq

/-- The admin-side environment: pending responses and the call trace. -/
structure AdminEnv where
  script : List AdminResp
  trace : List AdminCall
deriving Repr, DecidableEq

/-- Issue one admin-API call, recording it and consuming the script. -/
def callAdmin (c : AdminCall) (e : AdminEnv) : AdminResp × AdminEnv :=
  match e.script with
  | [] => (AdminResp.netThrow "no response", { e with trace := e.trace ++ [c] })
  | r :: rest => (r, { e with script := rest, trace := e.trace ++ [c] })

/-- The Stripe checkout session as the webhook handler reads it: the session
id, the optional payment-intent id, the order code from the metadata, and
whether shipping details with an address were collected. -/
structure StripeSession where
  id : String
  paymentIntent : Option String
  orderCode : Option String
  hasShippingAddress : Bool
deriving Repr, DecidableEq

/-- The pre-payment sub-steps of the webhook reconciler, run only for an
order still in AddingItems: set the customer, set the shipping address when
one was collected, look up eligible shipping methods and apply the first if
any, then transition to ArrangingPayment. Error-result payloads are only
logged; a thrown fetch propagates. -/
def webhookPreSteps (session : StripeSession) (orderId : String) (e : AdminEnv) :
    Except String AdminEnv :=
  let (r, e) := callAdmin (AdminCall.setCustomerForDraftOrder orderId) e
  match r with
  | AdminResp.netThrow m => Except.error m
  | _ =>
    let step2 : Except String AdminEnv :=
      if session.hasShippingAddress then
        let (r2, e) := callAdmin (AdminCall.setDraftOrderShippingAddress orderId) e
        match r2 with
        | AdminResp.netThrow m => Except.error m
        | _ => Except.ok e
      else Except.ok e
    match step2 with
    | Except.error m => Except.error m
    | Except.ok e =>
      let (r3, e) := callAdmin (AdminCall.eligibleShippingMethods orderId) e
      match r3 with
      | AdminResp.netThrow m => Except.error m
      | AdminResp.eligible (m :: _) =>
        let (r4, e) := callAdmin (AdminCall.setDraftOrderShippingMethod orderId m) e
        match r4 with
        | AdminResp.netThrow msg => Except.error msg
        | _ =>
          let (r5, e) := callAdmin (AdminCall.transitionToArrangingPayment orderId) e
          match r5 with
          | AdminResp.netThrow msg => Except.error msg
          | _ => Except.ok e
      | _ =>
        let (r5, e) := callAdmin (AdminCall.transitionToArrangingPayment orderId) e
        match r5 with
        | AdminResp.netThrow msg => Except.error msg
        | _ => Except.ok e

/-- handleCheckoutComplete: resolve the order by the code in the session
metadata (returning silently when absent, when login fails, or when no order
is found); for an order in AddingItems run the pre-payment sub-steps; for an
order in AddingItems or ArrangingPayment submit the manual payment record
keyed by the Stripe transaction id, logging its result either way; any other
state skips the payment submission. Thrown fetches propagate. -/
def handleCheckoutComplete (session : StripeSession) (e : AdminEnv) :
    Except String AdminEnv :=
  match session.orderCode with
  | none => Except.ok e
  | some code =>
    let (r, e) := callAdmin AdminCall.login e
    match r with
    | AdminResp.netThrow m => Except.error m
    | AdminResp.loginOk _ =>
      let (r2, e) := callAdmin (AdminCall.getOrderByCode code) e
      match r2 with
      | AdminResp.netThrow m => Except.error m
      | AdminResp.orders (o :: _) =>
        if o.state == "AddingItems" || o.state == "ArrangingPayment" then
          let pre : Except String AdminEnv :=
            if o.state == "AddingItems" then webhookPreSteps session o.id e
            else Except.ok e
          match pre with
          | Except.error m => Except.error m
          | Except.ok e =>
            let txId := jsOrStr session.paymentIntent session.id
            let (rp, e) := callAdmin (AdminCall.addManualPaymentToOrder o.id txId) e
            match rp with
            | AdminResp.netThrow m => Except.error m
            | _ => Except.ok e
        else Except.ok e
      | _ => Except.ok e
    | _ => Except.ok e

/-- The webhook endpoint for a verified checkout-session-completed event:
runs the reconciler and acknowledges with received true unless the
reconciler rethrew an exception, in which case the endpoint fails with a 500
after logging. The Bool is the received flag of the acknowledgment. -/
def webhookHandler (session : StripeSession) (e : AdminEnv) :
    Except String (Bool × AdminEnv) :=
  match handleCheckoutComplete session e with
  | Except.ok e => Except.ok (true, e)
  | Except.error m => Except.error m

/-! Concrete fixtures used by counterexamples and witnesses. They mirror the
one-product catalog of the storefront: variant 2, price 1799 minor units. -/

/-- A server order line for variant 2 with server line id L1. -/
def lineA : OrderLine :=
  { id := "L1", quantity := 1, linePriceWithTax := 1799
    productVariant :=
      { id := "2", name := "Standard Set", priceWithTax := 1799, featuredAsset := none
        product := { name := "Cat Tent", slug := "cat-tent", featuredAsset := none } } }

/-- A second server order line for variant 3 with server line id L2. -/
def lineB : OrderLine :=
  { id := "L2", quantity := 2, linePriceWithTax := 1000
    productVariant :=
      { id := "3", name := "Deluxe Set", priceWithTax := 500, featuredAsset := none
        product := { name := "Cat Tunnel", slug := "cat-tunnel", featuredAsset := none } } }

/-- An active order holding both lines with totals equal to the line sums. -/
def orderAB : Order :=
  { id := "1", code := "CA1", state := "AddingItems"
    totalWithTax := 2799, totalQuantity := 3, lines := [lineA, lineB] }

/-- An active order holding only line A with totals equal to the line sums. -/
def orderA1 : Order :=
  { id := "1", code := "CA1", state := "AddingItems"
    totalWithTax := 1799, totalQuantity := 1, lines := [lineA] }

/-- An active order whose order-level totals differ from the sum over its
lines, as happens when order-level charges or discounts apply. -/
def skewedOrder : Order :=
  { id := "1", code := "CA1", state := "ArrangingPayment"
    totalWithTax := 2299, totalQuantity := 1, lines := [lineA] }

/-- An active order with no lines, as after the last line is removed. -/
def emptyOrder : Order :=
  { id := "1", code := "CA1", state := "AddingItems"
    totalWithTax := 0, totalQuantity := 0, lines := [] }

/-- An order still arranging payment, not a completion signal for the poll. -/
def arrangingOrder : Order :=
  { id := "1", code := "CA1", state := "ArrangingPayment"
    totalWithTax := 1799, totalQuantity := 1, lines := [lineA] }

/-- The cart item corresponding to server line A. -/
def itemA : CartItem := mapLine lineA

/-- The cart item corresponding to server line B. -/
def itemB : CartItem := mapLine lineB

/-- An empty cart with nothing persisted. -/
def emptyCart : CartState :=
  { items := [], total := 0, quantity := 0, storage := none, isCartOpen := false }

/-- The product info the page passes for optimistic adds of variant 2. -/
def prodInfoA : ProdInfo := { name := "Cat Tent", price := 1799, image := none }

/-- The stuck-order message Vendure returns when the order left AddingItems. -/
def stuckMessage : String :=
  "The active Order cannot be modified, it may only be modified when in the AddingItems state"

/-! Basic lemmas about the building blocks. -/

/-- saveToStorage never changes the in-memory items. -/
theorem saveToStorage_items (s : CartState) : (saveToStorage s).items = s.items := by
  unfold saveToStorage; split <;> rfl

/-- saveToStorage never changes the total. -/
theorem saveToStorage_total (s : CartState) : (saveToStorage s).total = s.total := by
  unfold saveToStorage; split <;> rfl

/-- saveToStorage never changes the quantity. -/
theorem saveToStorage_quantity (s : CartState) : (saveToStorage s).quantity = s.quantity := by
  unfold saveToStorage; split <;> rfl

/-- The items adopted from a server order are exactly the mapped lines. -/
theorem adoptOrder_items (o : Order) (s : CartState) :
    (adoptOrder o s).items = o.lines.map mapLine := by
  unfold adoptOrder; rw [saveToStorage_items]

/-- The total adopted from a server order is the order-level total field. -/
theorem adoptOrder_total (o : Order) (s : CartState) :
    (adoptOrder o s).total = o.totalWithTax := by
  unfold adoptOrder; rw [saveToStorage_total]

/-- The quantity adopted from a server order is the order-level quantity. -/
theorem adoptOrder_quantity (o : Order) (s : CartState) :
    (adoptOrder o s).quantity = o.totalQuantity := by
  unfold adoptOrder; rw [saveToStorage_quantity]

/-- Item ids adopted from a server order are exactly its line ids. -/
theorem adoptOrder_ids (o : Order) (s : CartState) :
    (adoptOrder o s).items.map (fun it => it.id) = o.lines.map (fun l => l.id) := by
  rw [adoptOrder_items, List.map_map]; rfl

/-- One remote call leaves the tail of the script. -/
theorem callRemote_script (c : RemoteCall) (e : Env) :
    (callRemote c e).2.script = e.script.tail := by
  unfold callRemote; cases e.script <;> rfl

/-- One remote call appends exactly itself to the trace. -/
theorem callRemote_trace (c : RemoteCall) (e : Env) :
    (callRemote c e).2.trace = e.trace ++ [c] := by
  unfold callRemote; cases e.script <;> rfl

/-- One remote call does not advance the clock. -/
theorem callRemote_time (c : RemoteCall) (e : Env) :
    (callRemote c e).2.time = e.time := by
  unfold callRemote; cases e.script <;> rfl

/-- The response to a remote call is the script head, or a thrown error when
the script is exhausted. -/
theorem callRemote_resp (c : RemoteCall) (e : Env) (r : RemoteResp) (rest : List RemoteResp)
    (h : e.script = r :: rest) : (callRemote c e).1 = r := by
  unfold callRemote; rw [h]

/-- The script left by a remote call is a subset of the script before it. -/
theorem callRemote_script_subset (c : RemoteCall) (e : Env) :
    (callRemote c e).2.script ⊆ e.script := by
  rw [callRemote_script]; exact List.tail_subset e.script

/-- The replay loop consumes one scripted response per item. -/
theorem replayItems_script (items : List CartItem) (e : Env) :
    (replayItems items e).script = e.script.drop items.length := by
  induction items generalizing e with
  | nil => rfl
  | cons i rest ih =>
    show (replayItems rest (callRemote (RemoteCall.addItem i.variantId i.quantity) e).2).script = _
    rw [ih, callRemote_script, List.drop_tail]
    rfl

/-- The replay loop issues exactly one remote add per item, keyed by the
variant id, in order. -/
theorem replayItems_trace (items : List CartItem) (e : Env) :
    (replayItems items e).trace =
      e.trace ++ items.map (fun i => RemoteCall.addItem i.variantId i.quantity) := by
  induction items generalizing e with
  | nil => simp [replayItems]
  | cons i rest ih =>
    show (replayItems rest (callRemote (RemoteCall.addItem i.variantId i.quantity) e).2).trace = _
    rw [ih, callRemote_trace, List.map_cons, List.append_assoc]
    rfl

/-- The script left by the replay loop is a subset of the script before it. -/
theorem replayItems_script_subset (items : List CartItem) (e : Env) :
    (replayItems items e).script ⊆ e.script := by
  rw [replayItems_script]; exact List.drop_subset items.length e.script

/-! The totals invariant and the machinery to propagate it through the
engine operations. -/

/-- The totals invariant of a cart snapshot: both totals are the sums over
the current items. -/
def CartInv (s : CartState) : Prop :=
  s.total = sumLineTotals s.items ∧ s.quantity = sumQuantities s.items

/-- A server order whose order-level totals agree with the sums over its
mapped lines. -/
def consistentOrder (o : Order) : Prop :=
  o.totalWithTax = sumLineTotals (o.lines.map mapLine) ∧
  o.totalQuantity = sumQuantities (o.lines.map mapLine)

/-- A script all of whose active-order payloads are internally consistent. -/
def ConsistentScript (l : List RemoteResp) : Prop :=
  ∀ o : Order, RemoteResp.activeOrder (some o) ∈ l → consistentOrder o

/-- Consistency restricts to any sub-script. -/
theorem consistentScript_subset {l l' : List RemoteResp} (hsub : l' ⊆ l)
    (h : ConsistentScript l) : ConsistentScript l' :=
  fun o hm => h o (hsub hm)

/-- Consistency survives issuing one remote call. -/
theorem consistentScript_callRemote {e : Env} (c : RemoteCall)
    (h : ConsistentScript e.script) : ConsistentScript (callRemote c e).2.script :=
  consistentScript_subset (callRemote_script_subset c e) h

/-- A state built by withItems satisfies the totals invariant by
construction. -/
theorem withItems_inv (s : CartState) (items : List CartItem) :
    CartInv (withItems s items) := ⟨rfl, rfl⟩

/-- saveToStorage preserves the totals invariant. -/
theorem saveToStorage_inv {s : CartState} (h : CartInv s) : CartInv (saveToStorage s) := by
  constructor
  · rw [saveToStorage_total, saveToStorage_items]; exact h.1
  · rw [saveToStorage_quantity, saveToStorage_items]; exact h.2

/-- The cleared cart satisfies the totals invariant. -/
theorem clearedCart_inv (s : CartState) : CartInv (clearedCart s) := ⟨rfl, rfl⟩

/-- Adopting a consistent server order yields an invariant-satisfying
snapshot. -/
theorem adoptOrder_inv {o : Order} (s : CartState) (h : consistentOrder o) :
    CartInv (adoptOrder o s) := by
  constructor
  · rw [adoptOrder_total, adoptOrder_items]; exact h.1
  · rw [adoptOrder_quantity, adoptOrder_items]; exact h.2

/-- The optimistic phase of add satisfies the invariant by construction. -/
theorem applyOptimisticAdd_inv (variantId : String) (qty : Int) (info : ProdInfo)
    (now : Nat) (s : CartState) : CartInv (applyOptimisticAdd variantId qty info now s) := by
  unfold applyOptimisticAdd
  exact saveToStorage_inv (withItems_inv _ _)

/-- The optimistic add state (including the cart-open flip) satisfies the
invariant when the initial state does. -/
theorem optimisticAddState_inv (variantId : String) (qty : Int) (info : Option ProdInfo)
    (now : Nat) {s : CartState} (h : CartInv s) :
    CartInv (optimisticAddState variantId qty info now s) := by
  unfold optimisticAddState
  cases info with
  | none => exact h
  | some pi => exact applyOptimisticAdd_inv variantId qty pi now s

/-- The optimistic phase of updateQuantity preserves the invariant. -/
theorem applyOptimisticUpdate_inv (lineId : String) (qty : Int) {s : CartState}
    (h : CartInv s) : CartInv (applyOptimisticUpdate lineId qty s) := by
  unfold applyOptimisticUpdate
  cases s.items.findIdx? (fun it => it.id == lineId) with
  | none => exact h
  | some i => exact withItems_inv _ _

/-- The optimistic phase of removeFromCart preserves the invariant. -/
theorem applyOptimisticRemove_inv (lineId : String) {s : CartState}
    (h : CartInv s) : CartInv (applyOptimisticRemove lineId s) := by
  unfold applyOptimisticRemove
  cases s.items.findIdx? (fun it => it.id == lineId) with
  | none => exact h
  | some i => exact withItems_inv _ _

/-- The restore continuation either leaves the state alone, adopts an order
appearing in its script, or installs the cleared cart. -/
theorem syncRestore_state_cases (s : CartState) (e : Env) :
    (syncRestore s e).1 = s ∨
    (∃ o, RemoteResp.activeOrder (some o) ∈ e.script ∧ (syncRestore s e).1 = adoptOrder o s) ∨
    (syncRestore s e).1 = clearedCart s := by
  unfold syncRestore
  by_cases hres : (itemsToRestoreOf s).isEmpty
  · right; right; simp [hres]
  · simp only [hres, Bool.false_eq_true, if_false]
    cases hs2 : (replayItems (itemsToRestoreOf s) e).script with
    | nil => left; simp [callRemote, hs2, asActiveOrder]
    | cons r2 rest2 =>
      cases r2 with
      | activeOrder o =>
        cases o with
        | some o =>
          right; left
          refine ⟨o, ?_, ?_⟩
          · exact replayItems_script_subset _ e (by rw [hs2]; exact List.mem_cons_self _ _)
          · simp [callRemote, hs2, asActiveOrder]
        | none => left; simp [callRemote, hs2, asActiveOrder]
      | mutationOk o => left; simp [callRemote, hs2, asActiveOrder]
      | mutationErr c m => left; simp [callRemote, hs2, asActiveOrder]
      | netThrow m => left; simp [callRemote, hs2, asActiveOrder]

/-- syncCart either leaves the state alone, adopts an order appearing in its
script, or installs the cleared cart. -/
theorem syncCart_state_cases (s : CartState) (e : Env) :
    (syncCart s e).1 = s ∨
    (∃ o, RemoteResp.activeOrder (some o) ∈ e.script ∧ (syncCart s e).1 = adoptOrder o s) ∨
    (syncCart s e).1 = clearedCart s := by
  unfold syncCart
  cases hs : e.script with
  | nil => left; simp [callRemote, hs, asActiveOrder]
  | cons r rest =>
    cases r with
    | activeOrder o =>
      cases o with
      | some o =>
        right; left
        exact ⟨o, List.mem_cons_self _ _, by simp [callRemote, hs, asActiveOrder]⟩
      | none =>
        have := syncRestore_state_cases s { e with script := rest, trace := e.trace ++ [RemoteCall.getActiveOrder] }
        simp only [callRemote, hs, asActiveOrder]
        rcases this with h | ⟨o, hmem, h⟩ | h
        · left; exact h
        · right; left; exact ⟨o, List.mem_cons_of_mem _ hmem, h⟩
        · right; right; exact h
    | mutationOk o =>
      have := syncRestore_state_cases s { e with script := rest, trace := e.trace ++ [RemoteCall.getActiveOrder] }
      simp only [callRemote, hs, asActiveOrder]
      rcases this with h | ⟨o', hmem, h⟩ | h
      · left; exact h
      · right; left; exact ⟨o', List.mem_cons_of_mem _ hmem, h⟩
      · right; right; exact h
    | mutationErr c m =>
      have := syncRestore_state_cases s { e with script := rest, trace := e.trace ++ [RemoteCall.getActiveOrder] }
      simp only [callRemote, hs, asActiveOrder]
      rcases this with h | ⟨o', hmem, h⟩ | h
      · left; exact h
      · right; left; exact ⟨o', List.mem_cons_of_mem _ hmem, h⟩
      · right; right; exact h
    | netThrow m => left; simp [callRemote, hs, asActiveOrder]

/-- A sync whose script only carries consistent orders preserves the totals
invariant. -/
theorem syncCart_inv {s : CartState} {e : Env} (h : CartInv s)
    (hc : ConsistentScript e.script) : CartInv (syncCart s e).1 := by
  rcases syncCart_state_cases s e with hcase | ⟨o, hmem, hcase⟩ | hcase
  · rw [hcase]; exact h
  · rw [hcase]; exact adoptOrder_inv s (hc o hmem)
  · rw [hcase]; exact clearedCart_inv s

/-- With nothing to restore, the restore continuation clears the cart and
issues no remote call. -/
theorem syncRestore_empty (s : CartState) (e : Env)
    (h : (itemsToRestoreOf s).isEmpty = true) :
    syncRestore s e = (clearedCart s, e) := by
  unfold syncRestore; simp [h]

/-- With something to restore, the restore continuation ends in the
environment left by the replay loop followed by the re-fetch. -/
theorem syncRestore_env (s : CartState) (e : Env)
    (h : ¬(itemsToRestoreOf s).isEmpty = true) :
    (syncRestore s e).2 =
      (callRemote RemoteCall.getActiveOrder (replayItems (itemsToRestoreOf s) e)).2 := by
  unfold syncRestore
  simp only [h, Bool.false_eq_true, if_false]
  cases hc : callRemote RemoteCall.getActiveOrder (replayItems (itemsToRestoreOf s) e) with
  | mk r2 e2 =>
    cases r2 with
    | activeOrder o => cases o <;> simp [asActiveOrder]
    | mutationOk o => simp [asActiveOrder]
    | mutationErr c m => simp [asActiveOrder]
    | netThrow m => simp [asActiveOrder]

/-- Whatever the responses, the restore continuation only ever issues
active-order fetches and variant-keyed adds. -/
theorem syncRestore_trace (s : CartState) (e : Env) :
    ∃ ext, (syncRestore s e).2.trace = e.trace ++ ext ∧
      ∀ c ∈ ext, c = RemoteCall.getActiveOrder ∨ ∃ v q, c = RemoteCall.addItem v q := by
  by_cases hres : (itemsToRestoreOf s).isEmpty = true
  · refine ⟨[], ?_, ?_⟩
    · rw [syncRestore_empty s e hres]; simp
    · intro c hc; simp at hc
  · rw [syncRestore_env s e hres]
    refine ⟨(itemsToRestoreOf s).map (fun i => RemoteCall.addItem i.variantId i.quantity) ++
      [RemoteCall.getActiveOrder], ?_, ?_⟩
    · rw [callRemote_trace, replayItems_trace, List.append_assoc]
    · intro c hc
      rcases List.mem_append.mp hc with h | h
      · obtain ⟨i, _, hi⟩ := List.mem_map.mp h
        exact Or.inr ⟨i.variantId, i.quantity, hi.symm⟩
      · left; simpa using h

/-- Whatever the responses, syncCart only ever issues active-order fetches
and variant-keyed adds: in particular it never issues a line-keyed mutation
or a state reset. -/
theorem syncCart_trace_calls (s : CartState) (e : Env) :
    ∃ ext, (syncCart s e).2.trace = e.trace ++ ext ∧
      ∀ c ∈ ext, c = RemoteCall.getActiveOrder ∨ ∃ v q, c = RemoteCall.addItem v q := by
  unfold syncCart
  cases hs : e.script with
  | nil =>
    refine ⟨[RemoteCall.getActiveOrder], ?_, ?_⟩
    · simp [callRemote, hs, asActiveOrder]
    · intro c hc; left; simpa using hc
  | cons r rest =>
    cases r with
    | netThrow m =>
      refine ⟨[RemoteCall.getActiveOrder], ?_, ?_⟩
      · simp [callRemote, hs, asActiveOrder]
      · intro c hc; left; simpa using hc
    | activeOrder o =>
      cases o with
      | some o =>
        refine ⟨[RemoteCall.getActiveOrder], ?_, ?_⟩
        · simp [callRemote, hs, asActiveOrder]
        · intro c hc; left; simpa using hc
      | none =>
        obtain ⟨ext, htr, hcalls⟩ :=
          syncRestore_trace s { e with script := rest, trace := e.trace ++ [RemoteCall.getActiveOrder] }
        refine ⟨RemoteCall.getActiveOrder :: ext, ?_, ?_⟩
        · simp only [callRemote, hs, asActiveOrder]
          rw [htr]; simp
        · intro c hc
          rcases List.mem_cons.mp hc with h | h
          · exact Or.inl h
          · exact hcalls c h
    | mutationOk o =>
      obtain ⟨ext, htr, hcalls⟩ :=
        syncRestore_trace s { e with script := rest, trace := e.trace ++ [RemoteCall.getActiveOrder] }
      refine ⟨RemoteCall.getActiveOrder :: ext, ?_, ?_⟩
      · simp only [callRemote, hs, asActiveOrder]
        rw [htr]; simp
      · intro c hc
        rcases List.mem_cons.mp hc with h | h
        · exact Or.inl h
        · exact hcalls c h
    | mutationErr c0 m0 =>
      obtain ⟨ext, htr, hcalls⟩ :=
        syncRestore_trace s { e with script := rest, trace := e.trace ++ [RemoteCall.getActiveOrder] }
      refine ⟨RemoteCall.getActiveOrder :: ext, ?_, ?_⟩
      · simp only [callRemote, hs, asActiveOrder]
        rw [htr]; simp
      · intro c hc
        rcases List.mem_cons.mp hc with h | h
        · exact Or.inl h
        · exact hcalls c h

/-- updateQuantity is, definitionally, the optimistic local update followed
by the line-keyed remote call and a sync: both the success path and the
catch path of the source continue with the same sync. -/
theorem updateQuantity_eq (lineId : String) (qty : Int) (s : CartState) (e : Env) :
    updateQuantity lineId qty s e =
      syncCart (applyOptimisticUpdate lineId qty s)
        (callRemote (if qty ≤ 0 then RemoteCall.removeLine lineId
                     else RemoteCall.adjustLine lineId qty) e).2 := rfl

/-- updateQuantity preserves the totals invariant for consistent scripts. -/
theorem updateQuantity_inv (lineId : String) (qty : Int) {s : CartState} {e : Env}
    (h : CartInv s) (hc : ConsistentScript e.script) :
    CartInv (updateQuantity lineId qty s e).1 := by
  rw [updateQuantity_eq]
  exact syncCart_inv (applyOptimisticUpdate_inv lineId qty h) (consistentScript_callRemote _ hc)

/-- removeFromCart preserves the totals invariant for consistent scripts:
the sync paths re-derive it from the server, and the local catch path
recomputes both totals from the patched item list. -/
theorem removeFromCart_inv (lineId : String) {s : CartState} {e : Env}
    (h : CartInv s) (hc : ConsistentScript e.script) :
    CartInv (removeFromCart lineId s e).1 := by
  unfold removeFromCart
  cases hcr : callRemote (RemoteCall.removeLine lineId) e with
  | mk r e2 =>
    have hc2 : ConsistentScript e2.script := by
      have := consistentScript_callRemote (RemoteCall.removeLine lineId) hc
      rwa [hcr] at this
    cases r with
    | netThrow m =>
      cases removedItemOf lineId s with
      | some it => exact withItems_inv _ _
      | none => exact applyOptimisticRemove_inv lineId h
    | activeOrder o => exact syncCart_inv (applyOptimisticRemove_inv lineId h) hc2
    | mutationOk o => exact syncCart_inv (applyOptimisticRemove_inv lineId h) hc2
    | mutationErr c m => exact syncCart_inv (applyOptimisticRemove_inv lineId h) hc2

/-- The catch branch of addToCart preserves the totals invariant: every one
of its exits rolls back through a sync. -/
theorem addCatch_inv (variantId : String) (qty : Int) (errorMsg : String)
    {s : CartState} {e : Env} (h : CartInv s) (hc : ConsistentScript e.script) :
    CartInv (addCatch variantId qty errorMsg s e).1 := by
  unfold addCatch
  by_cases hstuck : stuckMsg errorMsg = true
  · simp only [hstuck, if_true]
    cases hr : callRemote RemoteCall.resetToAddingItems e with
    | mk rr e1 =>
      have hc1 : ConsistentScript e1.script := by
        have := consistentScript_callRemote RemoteCall.resetToAddingItems hc
        rwa [hr] at this
      cases rr with
      | netThrow m => exact syncCart_inv h hc1
      | activeOrder o => exact syncCart_inv h hc1
      | mutationOk o =>
        cases hr2 : callRemote (RemoteCall.addItem variantId qty) e1 with
        | mk r2 e2 =>
          have hc2 : ConsistentScript e2.script := by
            have := consistentScript_callRemote (RemoteCall.addItem variantId qty) hc1
            rwa [hr2] at this
          cases r2 <;> exact syncCart_inv h hc2
      | mutationErr c m =>
        cases hr2 : callRemote (RemoteCall.addItem variantId qty) e1 with
        | mk r2 e2 =>
          have hc2 : ConsistentScript e2.script := by
            have := consistentScript_callRemote (RemoteCall.addItem variantId qty) hc1
            rwa [hr2] at this
          cases r2 <;> exact syncCart_inv h hc2
  · simp only [hstuck, if_false]
    exact syncCart_inv h (consistentScript_subset (fun _ hm => hm) hc)

/-- The engine add preserves the totals invariant for consistent scripts:
every exit passes through either a server adoption or a recomputation. -/
theorem addToCart_inv (variantId : String) (qty : Int) (info : Option ProdInfo)
    {s : CartState} {e : Env} (h : CartInv s) (hc : ConsistentScript e.script) :
    CartInv (addToCart variantId qty info s e).1 := by
  unfold addToCart
  have hopt : CartInv (optimisticAddState variantId qty info e.time s) :=
    optimisticAddState_inv variantId qty info e.time h
  cases hr : callRemote (RemoteCall.addItem variantId qty) e with
  | mk r e1 =>
    have hc1 : ConsistentScript e1.script := by
      have := consistentScript_callRemote (RemoteCall.addItem variantId qty) hc
      rwa [hr] at this
    cases r with
    | mutationOk o => exact syncCart_inv hopt hc1
    | netThrow m => exact addCatch_inv variantId qty m hopt hc1
    | activeOrder o => exact addCatch_inv variantId qty "TypeError" hopt hc1
    | mutationErr c m =>
      by_cases hstuck : stuckMsg m = true
      · simp only [asMutation, hstuck, if_true]
        cases hr2 : callRemote RemoteCall.resetToAddingItems e1 with
        | mk rr e2 =>
          have hc2 : ConsistentScript e2.script := by
            have := consistentScript_callRemote RemoteCall.resetToAddingItems hc1
            rwa [hr2] at this
          cases rr with
          | netThrow m2 => exact addCatch_inv variantId qty m2 hopt hc2
          | activeOrder o => exact addCatch_inv variantId qty "TypeError" hopt hc2
          | mutationOk o =>
            cases hr3 : callRemote (RemoteCall.addItem variantId qty) e2 with
            | mk r3 e3 =>
              have hc3 : ConsistentScript e3.script := by
                have := consistentScript_callRemote (RemoteCall.addItem variantId qty) hc2
                rwa [hr3] at this
              cases r3 with
              | mutationOk o2 => exact syncCart_inv hopt hc3
              | mutationErr c2 m2 => exact syncCart_inv hopt hc3
              | netThrow m2 => exact addCatch_inv variantId qty m2 hopt hc3
              | activeOrder o2 => exact addCatch_inv variantId qty "TypeError" hopt hc3
          | mutationErr c2 m2 =>
            cases hr3 : callRemote (RemoteCall.addItem variantId qty) e2 with
            | mk r3 e3 =>
              have hc3 : ConsistentScript e3.script := by
                have := consistentScript_callRemote (RemoteCall.addItem variantId qty) hc2
                rwa [hr3] at this
              cases r3 with
              | mutationOk o2 => exact syncCart_inv hopt hc3
              | mutationErr c2' m2' => exact syncCart_inv hopt hc3
              | netThrow m2 => exact addCatch_inv variantId qty m2 hopt hc3
              | activeOrder o2 => exact addCatch_inv variantId qty "TypeError" hopt hc3
      · simp only [asMutation, hstuck, if_false]
        exact syncCart_inv hopt hc1

/-! Branch equations for syncCart, used to settle the individual claims. -/

/-- syncCart with an active order at the head of the script adopts it. -/
theorem syncCart_adopt {e : Env} {o : Order} {rest : List RemoteResp} (s : CartState)
    (hs : e.script = RemoteResp.activeOrder (some o) :: rest) :
    syncCart s e =
      (adoptOrder o s,
        { e with script := rest, trace := e.trace ++ [RemoteCall.getActiveOrder] }) := by
  simp [syncCart, callRemote, hs, asActiveOrder]

/-- syncCart with no active order at the head of the script continues with
the restore path. -/
theorem syncCart_noOrder {e : Env} {rest : List RemoteResp} (s : CartState)
    (hs : e.script = RemoteResp.activeOrder none :: rest) :
    syncCart s e =
      syncRestore s { e with script := rest, trace := e.trace ++ [RemoteCall.getActiveOrder] } := by
  simp [syncCart, callRemote, hs, asActiveOrder]

/-- syncCart whose fetch throws leaves the state unchanged. -/
theorem syncCart_throw {e : Env} {m : String} {rest : List RemoteResp} (s : CartState)
    (hs : e.script = RemoteResp.netThrow m :: rest) :
    syncCart s e =
      (s, { e with script := rest, trace := e.trace ++ [RemoteCall.getActiveOrder] }) := by
  simp [syncCart, callRemote, hs, asActiveOrder]

/-! Branch equations for addToCart. -/

/-- An ErrorResult whose message does not match the stuck pattern rolls back
through a sync of the optimistic state and surfaces the remote message. -/
theorem addToCart_errResult_nonstuck {e : Env} {c m : String} {rest : List RemoteResp}
    (v : String) (q : Int) (info : Option ProdInfo) (s : CartState)
    (hs : e.script = RemoteResp.mutationErr c m :: rest) (hstuck : stuckMsg m = false) :
    addToCart v q info s e =
      ((syncCart (optimisticAddState v q info e.time s)
          { e with script := rest, trace := e.trace ++ [RemoteCall.addItem v q] }).1,
       (syncCart (optimisticAddState v q info e.time s)
          { e with script := rest, trace := e.trace ++ [RemoteCall.addItem v q] }).2,
       ⟨false, some m⟩) := by
  simp [addToCart, callRemote, hs, asMutation, hstuck]

/-- A stuck ErrorResult followed by a successful reset and a successful
retry syncs the optimistic state against the post-retry script and reports
success. -/
theorem addToCart_stuck_retry_ok {e : Env} {c m : String} {r1 r2 : Order}
    {rest : List RemoteResp} (v : String) (q : Int) (info : Option ProdInfo) (s : CartState)
    (hs : e.script = RemoteResp.mutationErr c m :: RemoteResp.mutationOk r1 ::
      RemoteResp.mutationOk r2 :: rest)
    (hstuck : stuckMsg m = true) :
    addToCart v q info s e =
      ((syncCart (optimisticAddState v q info e.time s)
          { e with script := rest,
                   trace := e.trace ++ [RemoteCall.addItem v q, RemoteCall.resetToAddingItems,
                     RemoteCall.addItem v q] }).1,
       (syncCart (optimisticAddState v q info e.time s)
          { e with script := rest,
                   trace := e.trace ++ [RemoteCall.addItem v q, RemoteCall.resetToAddingItems,
                     RemoteCall.addItem v q] }).2,
       ⟨true, none⟩) := by
  simp [addToCart, callRemote, hs, asMutation, hstuck]

/-- A stuck ErrorResult followed by a successful reset and a retry that
fails with another ErrorResult gives up: it rolls back through a sync and
surfaces the original message, with no further reset or retry before the
rollback. -/
theorem addToCart_stuck_retry_err {e : Env} {c m c2 m2 : String} {r1 : Order}
    {rest : List RemoteResp} (v : String) (q : Int) (info : Option ProdInfo) (s : CartState)
    (hs : e.script = RemoteResp.mutationErr c m :: RemoteResp.mutationOk r1 ::
      RemoteResp.mutationErr c2 m2 :: rest)
    (hstuck : stuckMsg m = true) :
    addToCart v q info s e =
      ((syncCart (optimisticAddState v q info e.time s)
          { e with script := rest,
                   trace := e.trace ++ [RemoteCall.addItem v q, RemoteCall.resetToAddingItems,
                     RemoteCall.addItem v q] }).1,
       (syncCart (optimisticAddState v q info e.time s)
          { e with script := rest,
                   trace := e.trace ++ [RemoteCall.addItem v q, RemoteCall.resetToAddingItems,
                     RemoteCall.addItem v q] }).2,
       ⟨false, some m⟩) := by
  simp [addToCart, callRemote, hs, asMutation, hstuck]

/-- A successful remote add syncs the optimistic state. -/
theorem addToCart_ok {e : Env} {r1 : Order} {rest : List RemoteResp}
    (v : String) (q : Int) (info : Option ProdInfo) (s : CartState)
    (hs : e.script = RemoteResp.mutationOk r1 :: rest) :
    addToCart v q info s e =
      ((syncCart (optimisticAddState v q info e.time s)
          { e with script := rest, trace := e.trace ++ [RemoteCall.addItem v q] }).1,
       (syncCart (optimisticAddState v q info e.time s)
          { e with script := rest, trace := e.trace ++ [RemoteCall.addItem v q] }).2,
       ⟨true, none⟩) := by
  simp [addToCart, callRemote, hs, asMutation]

/-! Branch equations for removeFromCart. -/

/-- A remote remove that does not throw continues with a rollback sync of
the optimistically-removed state. -/
theorem removeFromCart_noThrow {e : Env} {r : RemoteResp} {rest : List RemoteResp}
    (lineId : String) (s : CartState)
    (hs : e.script = r :: rest) (hr : ∀ m, r ≠ RemoteResp.netThrow m) :
    removeFromCart lineId s e =
      syncCart (applyOptimisticRemove lineId s)
        { e with script := rest, trace := e.trace ++ [RemoteCall.removeLine lineId] } := by
  cases r with
  | netThrow m => exact absurd rfl (hr m)
  | activeOrder o => simp [removeFromCart, callRemote, hs]
  | mutationOk o => simp [removeFromCart, callRemote, hs]
  | mutationErr c m => simp [removeFromCart, callRemote, hs]

/-- A remote remove that throws patches the snapshot forward locally:
the removed item is appended back and no sync is issued. -/
theorem removeFromCart_throw {e : Env} {m : String} {rest : List RemoteResp} {it : CartItem}
    (lineId : String) (s : CartState)
    (hs : e.script = RemoteResp.netThrow m :: rest)
    (hit : removedItemOf lineId s = some it) :
    removeFromCart lineId s e =
      (withItems (applyOptimisticRemove lineId s) ((applyOptimisticRemove lineId s).items ++ [it]),
       { e with script := rest, trace := e.trace ++ [RemoteCall.removeLine lineId] }) := by
  simp [removeFromCart, callRemote, hs, hit]

/-- A concrete cart in server-confirmed shape for lines A and B, with its
storage mirror, matching the server order orderAB. -/
def cartAB : CartState :=
  { items := [itemA, itemB], total := 2799, quantity := 3
    storage := some [itemA, itemB], isCartOpen := true }

/-- C2 counterexample: syncing against a server order whose order-level
totals differ from the sums over its lines (as with order-level charges or
discounts) yields a snapshot whose total is the cached server figure, not
the sum of the item lineTotals, immediately after the public mutation
sync(). -/
theorem c2_sync_caches_server_totals_cex :
    (syncCart emptyCart
        { script := [RemoteResp.activeOrder (some skewedOrder)], trace := [], time := 0 }).1.total ≠
      sumLineTotals
        (syncCart emptyCart
          { script := [RemoteResp.activeOrder (some skewedOrder)], trace := [], time := 0 }).1.items := by
  decide

/-- C2 (amended): after add, updateQuantity and remove the totals are
recomputed from the items; after sync they are adopted from the server
own total fields of the server order, so the invariant holds after every public
mutation provided every active-order payload the server returns has totals
equal to the sums over its lines. -/
theorem c2_totals_invariant_amended (s : CartState) (e : Env)
    (h : CartInv s) (hc : ConsistentScript e.script) :
    CartInv (syncCart s e).1 ∧
    (∀ v q info, CartInv (addToCart v q info s e).1) ∧
    (∀ lid q, CartInv (updateQuantity lid q s e).1) ∧
    (∀ lid, CartInv (removeFromCart lid s e).1) :=
  ⟨syncCart_inv h hc,
   fun v q info => addToCart_inv v q info h hc,
   fun lid q => updateQuantity_inv lid q h hc,
   fun lid => removeFromCart_inv lid h hc⟩

/-- Witness for the amended totals invariant at a concrete consistent run. -/
theorem c2_totals_invariant_amended_witness :
    CartInv
      (syncCart cartAB
        { script := [RemoteResp.activeOrder (some orderAB)], trace := [], time := 0 }).1 := by
  have h : CartInv cartAB := by constructor <;> decide
  have hc : ConsistentScript [RemoteResp.activeOrder (some orderAB)] := by
    intro o hm
    simp only [List.mem_singleton] at hm
    cases hm
    constructor <;> decide
  exact (c2_totals_invariant_amended cartAB
    { script := [RemoteResp.activeOrder (some orderAB)], trace := [], time := 0 } h hc).1

/-- C4 counterexample: a remove whose remote call throws is rolled back by
patching the local snapshot forward (the removed item is appended back at
the end, with no sync), so the post-rollback snapshot differs from the one
a direct sync against the unmodified server state yields. -/
theorem c4_remove_rollback_patches_cex :
    (removeFromCart "L1" cartAB
        { script := [RemoteResp.netThrow "network error"], trace := [], time := 0 }).1.items ≠
      (syncCart cartAB
        { script := [RemoteResp.activeOrder (some orderAB)], trace := [], time := 0 }).1.items := by
  decide

/-- Every exit of the catch branch of the engine add — a thrown reset, a
retry that succeeds, fails with an ErrorResult or throws again, or a
non-stuck message — passes its final state and environment through a fresh
sync of the state it was entered with. -/
theorem addCatch_ends_in_sync (v : String) (q : Int) (m : String)
    (s : CartState) (e : Env) :
    ∃ e2, (addCatch v q m s e).1 = (syncCart s e2).1 ∧
      (addCatch v q m s e).2.1 = (syncCart s e2).2 := by
  unfold addCatch
  by_cases hstuck : stuckMsg m = true
  · simp only [hstuck, if_true]
    cases hr : callRemote RemoteCall.resetToAddingItems e with
    | mk rr e1 =>
      cases rr with
      | netThrow m2 => exact ⟨e1, rfl, rfl⟩
      | activeOrder o => exact ⟨e1, rfl, rfl⟩
      | mutationOk o =>
        cases hr2 : callRemote (RemoteCall.addItem v q) e1 with
        | mk r2 e2 =>
          cases r2 with
          | mutationOk o2 => exact ⟨e2, rfl, rfl⟩
          | mutationErr c2 m2 => exact ⟨e2, rfl, rfl⟩
          | netThrow m2 => exact ⟨e2, rfl, rfl⟩
          | activeOrder o2 => exact ⟨e2, rfl, rfl⟩
      | mutationErr c2 m2 =>
        cases hr2 : callRemote (RemoteCall.addItem v q) e1 with
        | mk r2 e2 =>
          cases r2 with
          | mutationOk o2 => exact ⟨e2, rfl, rfl⟩
          | mutationErr c2' m2' => exact ⟨e2, rfl, rfl⟩
          | netThrow m2 => exact ⟨e2, rfl, rfl⟩
          | activeOrder o2 => exact ⟨e2, rfl, rfl⟩
  · simp only [hstuck, if_false]
    exact ⟨e, rfl, rfl⟩

/-- Every exit of the engine add — remote success, ErrorResult with or
without the stuck pattern, a reset or retry that fails in any way, and
every thrown failure — passes its final state and environment through a
fresh sync of the optimistic state: the snapshot is never patched forward
on the add path. -/
theorem addToCart_ends_in_sync (v : String) (q : Int) (info : Option ProdInfo)
    (s : CartState) (e : Env) :
    ∃ e2, (addToCart v q info s e).1 =
        (syncCart (optimisticAddState v q info e.time s) e2).1 ∧
      (addToCart v q info s e).2.1 =
        (syncCart (optimisticAddState v q info e.time s) e2).2 := by
  unfold addToCart
  cases hr : callRemote (RemoteCall.addItem v q) e with
  | mk r e1 =>
    cases r with
    | mutationOk o => exact ⟨e1, rfl, rfl⟩
    | netThrow m => exact addCatch_ends_in_sync v q m _ e1
    | activeOrder o => exact addCatch_ends_in_sync v q "TypeError" _ e1
    | mutationErr c0 m =>
      by_cases hstuck : stuckMsg m = true
      · simp only [asMutation, hstuck, if_true]
        cases hr2 : callRemote RemoteCall.resetToAddingItems e1 with
        | mk rr e2 =>
          cases rr with
          | netThrow m2 => exact addCatch_ends_in_sync v q m2 _ e2
          | activeOrder o => exact addCatch_ends_in_sync v q "TypeError" _ e2
          | mutationOk o =>
            cases hr3 : callRemote (RemoteCall.addItem v q) e2 with
            | mk r3 e3 =>
              cases r3 with
              | mutationOk o2 => exact ⟨e3, rfl, rfl⟩
              | mutationErr c2 m2 => exact ⟨e3, rfl, rfl⟩
              | netThrow m2 => exact addCatch_ends_in_sync v q m2 _ e3
              | activeOrder o2 => exact addCatch_ends_in_sync v q "TypeError" _ e3
          | mutationErr c2 m2 =>
            cases hr3 : callRemote (RemoteCall.addItem v q) e2 with
            | mk r3 e3 =>
              cases r3 with
              | mutationOk o2 => exact ⟨e3, rfl, rfl⟩
              | mutationErr c2' m2' => exact ⟨e3, rfl, rfl⟩
              | netThrow m2 => exact addCatch_ends_in_sync v q m2 _ e3
              | activeOrder o2 => exact addCatch_ends_in_sync v q "TypeError" _ e3
      · simp only [asMutation, hstuck, if_false]
        exact ⟨e1, rfl, rfl⟩

/-- C4 (amended): updateQuantity always rolls back through a fresh sync;
addToCart on every path — including thrown network failures and failed
stuck-recovery — derives its final state from a fresh sync of the
optimistic state, the non-stuck ErrorResult case with the sync environment
pinned exactly; removeFromCart rolls back through a sync whenever the
remote call returns a payload; only a thrown remote remove is rolled back
by locally re-appending the removed item, with no sync issued. -/
theorem c4_rollback_via_sync_amended :
    (∀ (lid : String) (q : Int) (s : CartState) (e : Env),
      updateQuantity lid q s e =
        syncCart (applyOptimisticUpdate lid q s)
          (callRemote (if q ≤ 0 then RemoteCall.removeLine lid
                       else RemoteCall.adjustLine lid q) e).2) ∧
    (∀ (v : String) (q : Int) (info : Option ProdInfo) (s : CartState) (e : Env),
      ∃ e2, (addToCart v q info s e).1 =
        (syncCart (optimisticAddState v q info e.time s) e2).1) ∧
    (∀ (v : String) (q : Int) (info : Option ProdInfo) (s : CartState) (e : Env)
        (c m : String) (rest : List RemoteResp),
      e.script = RemoteResp.mutationErr c m :: rest → stuckMsg m = false →
      (addToCart v q info s e).1 =
        (syncCart (optimisticAddState v q info e.time s)
          { e with script := rest, trace := e.trace ++ [RemoteCall.addItem v q] }).1) ∧
    (∀ (lid : String) (s : CartState) (e : Env) (r : RemoteResp) (rest : List RemoteResp),
      e.script = r :: rest → (∀ m, r ≠ RemoteResp.netThrow m) →
      removeFromCart lid s e =
        syncCart (applyOptimisticRemove lid s)
          { e with script := rest, trace := e.trace ++ [RemoteCall.removeLine lid] }) ∧
    (∀ (lid : String) (s : CartState) (e : Env) (m : String) (rest : List RemoteResp)
        (it : CartItem),
      e.script = RemoteResp.netThrow m :: rest → removedItemOf lid s = some it →
      (removeFromCart lid s e).1 =
          withItems (applyOptimisticRemove lid s)
            ((applyOptimisticRemove lid s).items ++ [it]) ∧
        (removeFromCart lid s e).2.trace = e.trace ++ [RemoteCall.removeLine lid]) := by
  refine ⟨fun lid q s e => updateQuantity_eq lid q s e, ?_, ?_, ?_, ?_⟩
  · intro v q info s e
    obtain ⟨e2, h1, _⟩ := addToCart_ends_in_sync v q info s e
    exact ⟨e2, h1⟩
  · intro v q info s e c m rest hs hstuck
    rw [addToCart_errResult_nonstuck v q info s hs hstuck]
  · intro lid s e r rest hs hr
    exact removeFromCart_noThrow lid s hs hr
  · intro lid s e m rest it hs hit
    rw [removeFromCart_throw lid s hs hit]
    exact ⟨rfl, rfl⟩

/-- Witness for the amended rollback discipline at concrete runs: a failing
update rolls back to the direct-sync snapshot, an add whose remote call
throws ends in a state derived by a sync of the optimistic state, and a
thrown remove issues only the one line-keyed call. -/
theorem c4_rollback_via_sync_amended_witness :
    updateQuantity "L1" 2 cartAB { script := [], trace := [], time := 0 } =
      syncCart (applyOptimisticUpdate "L1" 2 cartAB)
        (callRemote (if (2 : Int) ≤ 0 then RemoteCall.removeLine "L1"
                     else RemoteCall.adjustLine "L1" 2)
          { script := [], trace := [], time := 0 }).2 ∧
    (∃ e2, (addToCart "2" 1 (some prodInfoA) emptyCart
        { script := [RemoteResp.netThrow "network"], trace := [], time := 42 }).1 =
      (syncCart (optimisticAddState "2" 1 (some prodInfoA) 42 emptyCart) e2).1) ∧
    (removeFromCart "L1" cartAB
        { script := [RemoteResp.netThrow "network error"], trace := [], time := 0 }).2.trace =
      [RemoteCall.removeLine "L1"] := by
  refine ⟨?_, ?_, ?_⟩
  · exact c4_rollback_via_sync_amended.1 "L1" 2 cartAB { script := [], trace := [], time := 0 }
  · exact c4_rollback_via_sync_amended.2.1 "2" 1 (some prodInfoA) emptyCart
      { script := [RemoteResp.netThrow "network"], trace := [], time := 42 }
  · exact (c4_rollback_via_sync_amended.2.2.2.2 "L1" cartAB
      { script := [RemoteResp.netThrow "network error"], trace := [], time := 0 }
      "network error" [] itemA rfl (by decide)).2

/-- A script on which the engine add performs two resets and three remote
adds: the first add fails with a stuck-state ErrorResult, the reset
succeeds, the retry then throws with a stuck-state message, and the catch
branch resets and retries a second time. -/
def stuckScript : List RemoteResp :=
  [RemoteResp.mutationErr "ORDER_MODIFICATION_ERROR" stuckMessage,
   RemoteResp.mutationOk orderA1,
   RemoteResp.netThrow stuckMessage,
   RemoteResp.mutationOk orderA1,
   RemoteResp.mutationOk orderA1,
   RemoteResp.activeOrder (some orderA1)]

/-- C3 counterexample: when the single retry fails by throwing with a
message that itself matches the stuck pattern, the catch branch of add
issues a second reset and a third remote add, so the add is not retried
exactly once and the engine does not give up after the failed retry. -/
theorem c3_double_retry_cex :
    (addToCart "2" 1 (some prodInfoA) emptyCart
        { script := stuckScript, trace := [], time := 0 }).2.1.trace.count
        RemoteCall.resetToAddingItems = 2 ∧
    (addToCart "2" 1 (some prodInfoA) emptyCart
        { script := stuckScript, trace := [], time := 0 }).2.1.trace.count
        (RemoteCall.addItem "2" 1) = 3 ∧
    (addToCart "2" 1 (some prodInfoA) emptyCart
        { script := stuckScript, trace := [], time := 0 }).2.2.success = true := by
  decide

/-- C3 (amended): on a stuck-state ErrorResult the engine resets and retries
exactly once within that code path; a successful retry reports success and
re-derives the cart from the server (so the item appears exactly as the
server records it, no double-add), a retry failing with an ErrorResult gives
up with the original message and issues no further reset or line mutation,
and a non-stuck ErrorResult triggers no reset at all. Only a retry that
throws with a stuck-pattern message re-enters the recovery in the catch
branch (the counterexample). -/
theorem c3_stuck_state_retry_amended :
    (∀ (v : String) (q : Int) (info : Option ProdInfo) (s : CartState) (e : Env)
        (c m : String) (r1 r2 : Order) (o : Order) (rest : List RemoteResp),
      e.script = RemoteResp.mutationErr c m :: RemoteResp.mutationOk r1 ::
        RemoteResp.mutationOk r2 :: RemoteResp.activeOrder (some o) :: rest →
      stuckMsg m = true →
      (addToCart v q info s e).2.2 = ⟨true, none⟩ ∧
        (addToCart v q info s e).1 = adoptOrder o (optimisticAddState v q info e.time s) ∧
        (addToCart v q info s e).1.items = o.lines.map mapLine ∧
        (addToCart v q info s e).2.1.trace =
          e.trace ++ [RemoteCall.addItem v q, RemoteCall.resetToAddingItems,
            RemoteCall.addItem v q, RemoteCall.getActiveOrder]) ∧
    (∀ (v : String) (q : Int) (info : Option ProdInfo) (s : CartState) (e : Env)
        (c m c2 m2 : String) (r1 : Order) (rest : List RemoteResp),
      e.script = RemoteResp.mutationErr c m :: RemoteResp.mutationOk r1 ::
        RemoteResp.mutationErr c2 m2 :: rest →
      stuckMsg m = true →
      (addToCart v q info s e).2.2 = ⟨false, some m⟩ ∧
        ∃ ext, (addToCart v q info s e).2.1.trace =
            e.trace ++ [RemoteCall.addItem v q, RemoteCall.resetToAddingItems,
              RemoteCall.addItem v q] ++ ext ∧
          RemoteCall.resetToAddingItems ∉ ext) ∧
    (∀ (v : String) (q : Int) (info : Option ProdInfo) (s : CartState) (e : Env)
        (c m : String) (rest : List RemoteResp),
      e.script = RemoteResp.mutationErr c m :: rest →
      stuckMsg m = false →
      ∃ ext, (addToCart v q info s e).2.1.trace =
          e.trace ++ [RemoteCall.addItem v q] ++ ext ∧
        RemoteCall.resetToAddingItems ∉ ext) := by
  refine ⟨?_, ?_, ?_⟩
  · intro v q info s e c m r1 r2 o rest hs hstuck
    rw [addToCart_stuck_retry_ok v q info s hs hstuck]
    rw [syncCart_adopt (optimisticAddState v q info e.time s) (by rfl)]
    refine ⟨rfl, rfl, by rw [adoptOrder_items], ?_⟩
    simp
  · intro v q info s e c m c2 m2 r1 rest hs hstuck
    rw [addToCart_stuck_retry_err v q info s hs hstuck]
    refine ⟨rfl, ?_⟩
    obtain ⟨ext, htr, hcalls⟩ :=
      syncCart_trace_calls (optimisticAddState v q info e.time s)
        { e with script := rest,
                 trace := e.trace ++ [RemoteCall.addItem v q, RemoteCall.resetToAddingItems,
                   RemoteCall.addItem v q] }
    refine ⟨ext, ?_, ?_⟩
    · simp [htr]
    · intro hmem
      rcases hcalls _ hmem with h | ⟨v', q', h⟩ <;> simp at h
  · intro v q info s e c m rest hs hstuck
    rw [addToCart_errResult_nonstuck v q info s hs hstuck]
    obtain ⟨ext, htr, hcalls⟩ :=
      syncCart_trace_calls (optimisticAddState v q info e.time s)
        { e with script := rest, trace := e.trace ++ [RemoteCall.addItem v q] }
    refine ⟨ext, ?_, ?_⟩
    · simp [htr]
    · intro hmem
      rcases hcalls _ hmem with h | ⟨v', q', h⟩ <;> simp at h

/-- Witness for the amended stuck-state recovery: a concrete run that fails
once with the stuck message and succeeds on retry completes successfully
and the cart holds the added item exactly once. -/
theorem c3_stuck_state_retry_amended_witness :
    (addToCart "2" 1 (some prodInfoA) emptyCart
        { script := [RemoteResp.mutationErr "ORDER_MODIFICATION_ERROR" stuckMessage,
            RemoteResp.mutationOk orderA1, RemoteResp.mutationOk orderA1,
            RemoteResp.activeOrder (some orderA1)],
          trace := [], time := 0 }).2.2 = ⟨true, none⟩ ∧
    (addToCart "2" 1 (some prodInfoA) emptyCart
        { script := [RemoteResp.mutationErr "ORDER_MODIFICATION_ERROR" stuckMessage,
            RemoteResp.mutationOk orderA1, RemoteResp.mutationOk orderA1,
            RemoteResp.activeOrder (some orderA1)],
          trace := [], time := 0 }).1.items = [itemA] := by
  have h := c3_stuck_state_retry_amended.1 "2" 1 (some prodInfoA) emptyCart
    { script := [RemoteResp.mutationErr "ORDER_MODIFICATION_ERROR" stuckMessage,
        RemoteResp.mutationOk orderA1, RemoteResp.mutationOk orderA1,
        RemoteResp.activeOrder (some orderA1)],
      trace := [], time := 0 }
    "ORDER_MODIFICATION_ERROR" stuckMessage orderA1 orderA1 orderA1 [] rfl (by decide)
  exact ⟨h.1, by rw [h.2.2.1]; rfl⟩

/-- Both branches of the back navigation end in the environment left by the
single reset call. -/
theorem goBackFromPayment_env (c : CheckoutState) (e : Env) :
    (goBackFromPayment c e).2 = (callRemote RemoteCall.resetToAddingItems e).2 := by
  unfold goBackFromPayment
  cases hc : callRemote RemoteCall.resetToAddingItems e with
  | mk r e1 =>
    cases r with
    | activeOrder o => simp [asMutation]
    | mutationOk o => simp [asMutation]
    | mutationErr c0 m => simp [asMutation]
    | netThrow m => simp [asMutation]

/-- The checkout state after a back navigation: the step returns to
shipping, the address widget is re-created, and the payment widget is
destroyed exactly when the reset call did not throw. -/
theorem goBackFromPayment_state (c : CheckoutState) (e : Env) :
    (goBackFromPayment c e).1 =
      { c with
        step := 2
        addressElement := true
        paymentElement :=
          match asMutation (callRemote RemoteCall.resetToAddingItems e).1 with
          | Except.error _ => c.paymentElement
          | Except.ok _ => false } := by
  unfold goBackFromPayment destroyPaymentElement
  cases hc : callRemote RemoteCall.resetToAddingItems e with
  | mk r e1 =>
    cases r with
    | activeOrder o => simp [asMutation]
    | mutationOk o => simp [asMutation]
    | mutationErr c0 m => simp [asMutation]
    | netThrow m => simp [asMutation]

/-- C1 counterexample: a back navigation from the Payment step whose reset
call throws returns control to the Shipping step with the payment widget
still mounted — the destroy is skipped because it sits after the reset
inside the same try block. -/
theorem c1_back_nav_widget_not_destroyed_cex :
    (goBackFromPayment
        { step := 3, isCheckoutOpen := true, checkoutError := "",
          paymentElement := true, addressElement := false }
        { script := [RemoteResp.netThrow "network error"], trace := [], time := 0 }).1.step = 2 ∧
    (goBackFromPayment
        { step := 3, isCheckoutOpen := true, checkoutError := "",
          paymentElement := true, addressElement := false }
        { script := [RemoteResp.netThrow "network error"], trace := [], time := 0 }).1.paymentElement
      = true := by
  decide

/-- C1 (amended): every back navigation from Payment issues the reset
transition exactly once before control returns to the Shipping step, and
every abandon at Payment or later issues it exactly once before the dialog
closes; the payment widget is destroyed whenever the reset call returns a
payload (success or ErrorResult), but when the reset throws, the destroy is
skipped while control still returns to Shipping or the dialog still
closes. An abandon before the Payment step issues no remote call. -/
theorem c1_back_and_abandon_reset_once (c : CheckoutState) (e : Env) :
    ((goBackFromPayment c e).2.trace = e.trace ++ [RemoteCall.resetToAddingItems] ∧
      (goBackFromPayment c e).1.step = 2) ∧
    (∀ r rest, e.script = r :: rest → (∃ x, asMutation r = Except.ok x) →
      (goBackFromPayment c e).1.paymentElement = false) ∧
    (3 ≤ c.step →
      (closeCheckout c e).2.trace = e.trace ++ [RemoteCall.resetToAddingItems] ∧
      (closeCheckout c e).1.isCheckoutOpen = false ∧
      (∀ r rest, e.script = r :: rest → (∃ x, asMutation r = Except.ok x) →
        (closeCheckout c e).1.paymentElement = false)) ∧
    (c.step < 3 →
      closeCheckout c e = ({ c with isCheckoutOpen := false, checkoutError := "" }, e)) := by
  refine ⟨⟨?_, ?_⟩, ?_, ?_, ?_⟩
  · rw [goBackFromPayment_env, callRemote_trace]
  · rw [goBackFromPayment_state]
  · intro r rest hs hr
    rw [goBackFromPayment_state]
    have : (callRemote RemoteCall.resetToAddingItems e).1 = r := callRemote_resp _ _ _ _ hs
    rw [this]
    obtain ⟨x, hx⟩ := hr
    rw [hx]
  · intro hstep
    unfold closeCheckout
    simp only [hstep, if_pos]
    cases hc : callRemote RemoteCall.resetToAddingItems e with
    | mk r e1 =>
      have he1 : e1.trace = e.trace ++ [RemoteCall.resetToAddingItems] := by
        have := callRemote_trace RemoteCall.resetToAddingItems e
        rw [hc] at this; exact this
      refine ⟨?_, ?_, ?_⟩
      · cases r with
        | activeOrder o => simpa [asMutation] using he1
        | mutationOk o => simpa [asMutation] using he1
        | mutationErr c0 m => simpa [asMutation] using he1
        | netThrow m => simpa [asMutation] using he1
      · cases r with
        | activeOrder o => simp [asMutation]
        | mutationOk o => simp [asMutation]
        | mutationErr c0 m => simp [asMutation]
        | netThrow m => simp [asMutation]
      · intro r' rest hs hr'
        have hr0 : r = r' := by
          have := callRemote_resp RemoteCall.resetToAddingItems e r' rest hs
          rw [hc] at this; exact this
        subst hr0
        obtain ⟨x, hx⟩ := hr'
        cases r with
        | netThrow m => simp [asMutation] at hx
        | activeOrder o => simp [asMutation] at hx
        | mutationOk o => simp [asMutation, destroyPaymentElement]
        | mutationErr c0 m => simp [asMutation, destroyPaymentElement]
  · intro hstep
    unfold closeCheckout
    have : ¬ 3 ≤ c.step := by omega
    simp only [this, if_neg, not_false_iff]

/-- Witness for the amended back-navigation rule at a concrete run: a
successful reset is issued exactly once, the payment widget is destroyed
and the abandon closes the dialog. -/
theorem c1_back_and_abandon_reset_once_witness :
    (goBackFromPayment
        { step := 3, isCheckoutOpen := true, checkoutError := "",
          paymentElement := true, addressElement := false }
        { script := [RemoteResp.mutationOk orderA1], trace := [], time := 0 }).2.trace =
      [RemoteCall.resetToAddingItems] ∧
    (goBackFromPayment
        { step := 3, isCheckoutOpen := true, checkoutError := "",
          paymentElement := true, addressElement := false }
        { script := [RemoteResp.mutationOk orderA1], trace := [], time := 0 }).1.paymentElement
      = false ∧
    (closeCheckout
        { step := 3, isCheckoutOpen := true, checkoutError := "",
          paymentElement := true, addressElement := false }
        { script := [RemoteResp.mutationOk orderA1], trace := [], time := 0 }).1.isCheckoutOpen
      = false := by
  have h := c1_back_and_abandon_reset_once
    { step := 3, isCheckoutOpen := true, checkoutError := "",
      paymentElement := true, addressElement := false }
    { script := [RemoteResp.mutationOk orderA1], trace := [], time := 0 }
  exact ⟨h.1.1, h.2.1 (RemoteResp.mutationOk orderA1) [] rfl ⟨Sum.inl orderA1, rfl⟩,
    (h.2.2.1 (by decide)).2.1⟩

/-! Claim C5: which ids reach the remote client. -/

/-- The catch branch of the engine add issues only fetches, resets and
variant-keyed adds, never a line-keyed mutation. -/
theorem addCatch_trace_calls (v : String) (q : Int) (m : String) (s : CartState) (e : Env) :
    ∃ ext, (addCatch v q m s e).2.1.trace = e.trace ++ ext ∧
      ∀ c ∈ ext, c = RemoteCall.getActiveOrder ∨ c = RemoteCall.resetToAddingItems ∨
        ∃ v' q', c = RemoteCall.addItem v' q' := by
  unfold addCatch
  by_cases hstuck : stuckMsg m = true
  · simp only [hstuck, if_true]
    cases hr : callRemote RemoteCall.resetToAddingItems e with
    | mk rr e1 =>
      have he1 : e1.trace = e.trace ++ [RemoteCall.resetToAddingItems] := by
        have := callRemote_trace RemoteCall.resetToAddingItems e
        rw [hr] at this; exact this
      have hsync : ∀ (s2 : CartState) (e2 : Env), e2.trace = e.trace ++
          [RemoteCall.resetToAddingItems] →
          ∃ ext, (syncCart s2 e2).2.trace = e.trace ++ ext ∧
            ∀ c ∈ ext, c = RemoteCall.getActiveOrder ∨ c = RemoteCall.resetToAddingItems ∨
              ∃ v' q', c = RemoteCall.addItem v' q' := by
        intro s2 e2 htr
        obtain ⟨ext, hext, hcalls⟩ := syncCart_trace_calls s2 e2
        refine ⟨RemoteCall.resetToAddingItems :: ext, ?_, ?_⟩
        · rw [hext, htr]; simp
        · intro c hc
          rcases List.mem_cons.mp hc with h | h
          · exact Or.inr (Or.inl h)
          · rcases hcalls c h with h' | ⟨v', q', h'⟩
            · exact Or.inl h'
            · exact Or.inr (Or.inr ⟨v', q', h'⟩)
      cases rr with
      | netThrow m2 => exact hsync _ e1 he1
      | activeOrder o => exact hsync _ e1 he1
      | mutationOk o =>
        cases hr2 : callRemote (RemoteCall.addItem v q) e1 with
        | mk r2 e2 =>
          have he2 : e2.trace = e.trace ++ [RemoteCall.resetToAddingItems, RemoteCall.addItem v q] := by
            have := callRemote_trace (RemoteCall.addItem v q) e1
            rw [hr2] at this; rw [this, he1]; simp
          have hsync2 : ∀ (s3 : CartState),
              ∃ ext, (syncCart s3 e2).2.trace = e.trace ++ ext ∧
                ∀ c ∈ ext, c = RemoteCall.getActiveOrder ∨ c = RemoteCall.resetToAddingItems ∨
                  ∃ v' q', c = RemoteCall.addItem v' q' := by
            intro s3
            obtain ⟨ext, hext, hcalls⟩ := syncCart_trace_calls s3 e2
            refine ⟨RemoteCall.resetToAddingItems :: RemoteCall.addItem v q :: ext, ?_, ?_⟩
            · rw [hext, he2]; simp
            · intro c hc
              rcases List.mem_cons.mp hc with h | h
              · exact Or.inr (Or.inl h)
              · rcases List.mem_cons.mp h with h' | h'
                · exact Or.inr (Or.inr ⟨v, q, h'⟩)
                · rcases hcalls c h' with h'' | ⟨v', q', h''⟩
                  · exact Or.inl h''
                  · exact Or.inr (Or.inr ⟨v', q', h''⟩)
          cases r2 <;> exact hsync2 _
      | mutationErr c2 m2 =>
        cases hr2 : callRemote (RemoteCall.addItem v q) e1 with
        | mk r2 e2 =>
          have he2 : e2.trace = e.trace ++ [RemoteCall.resetToAddingItems, RemoteCall.addItem v q] := by
            have := callRemote_trace (RemoteCall.addItem v q) e1
            rw [hr2] at this; rw [this, he1]; simp
          have hsync2 : ∀ (s3 : CartState),
              ∃ ext, (syncCart s3 e2).2.trace = e.trace ++ ext ∧
                ∀ c ∈ ext, c = RemoteCall.getActiveOrder ∨ c = RemoteCall.resetToAddingItems ∨
                  ∃ v' q', c = RemoteCall.addItem v' q' := by
            intro s3
            obtain ⟨ext, hext, hcalls⟩ := syncCart_trace_calls s3 e2
            refine ⟨RemoteCall.resetToAddingItems :: RemoteCall.addItem v q :: ext, ?_, ?_⟩
            · rw [hext, he2]; simp
            · intro c hc
              rcases List.mem_cons.mp hc with h | h
              · exact Or.inr (Or.inl h)
              · rcases List.mem_cons.mp h with h' | h'
                · exact Or.inr (Or.inr ⟨v, q, h'⟩)
                · rcases hcalls c h' with h'' | ⟨v', q', h''⟩
                  · exact Or.inl h''
                  · exact Or.inr (Or.inr ⟨v', q', h''⟩)
          cases r2 <;> exact hsync2 _
  · simp only [hstuck, if_false]
    obtain ⟨ext, hext, hcalls⟩ := syncCart_trace_calls s e
    refine ⟨ext, hext, ?_⟩
    intro c hc
    rcases hcalls c hc with h | ⟨v', q', h⟩
    · exact Or.inl h
    · exact Or.inr (Or.inr ⟨v', q', h⟩)

/-- The calls the engine add may issue: fetches, resets, and variant-keyed
adds — never a line-keyed adjust or remove. -/
def SafeCall (c : RemoteCall) : Prop :=
  c = RemoteCall.getActiveOrder ∨ c = RemoteCall.resetToAddingItems ∨
    ∃ v q, c = RemoteCall.addItem v q

/-- Shift a safe trace extension across a safe prefix. -/
theorem safe_trace_shift (base pre tr ext : List RemoteCall)
    (hpre : ∀ c ∈ pre, SafeCall c) (hext : ∀ c ∈ ext, SafeCall c)
    (h : tr = (base ++ pre) ++ ext) :
    ∃ ext2, tr = base ++ ext2 ∧ ∀ c ∈ ext2, SafeCall c :=
  ⟨pre ++ ext, by rw [h, List.append_assoc],
   fun c hc => (List.mem_append.mp hc).elim (hpre c) (hext c)⟩

/-- Whatever the responses, the engine add only ever issues fetches, resets
and variant-keyed adds: no line-keyed mutation, so no id of any kind is sent
as a line id on the add path. -/
theorem addToCart_trace_calls (v : String) (q : Int) (info : Option ProdInfo)
    (s : CartState) (e : Env) :
    ∃ ext, (addToCart v q info s e).2.1.trace = e.trace ++ ext ∧
      ∀ c ∈ ext, SafeCall c := by
  unfold addToCart
  cases hr : callRemote (RemoteCall.addItem v q) e with
  | mk r e1 =>
    have he1 : e1.trace = e.trace ++ [RemoteCall.addItem v q] := by
      have := callRemote_trace (RemoteCall.addItem v q) e
      rw [hr] at this; exact this
    have hpre1 : ∀ c ∈ [RemoteCall.addItem v q], SafeCall c := by
      intro c hc
      simp only [List.mem_singleton] at hc
      exact Or.inr (Or.inr ⟨v, q, hc⟩)
    have hsync1 : ∀ (s2 : CartState),
        ∃ ext, (syncCart s2 e1).2.trace = e.trace ++ ext ∧ ∀ c ∈ ext, SafeCall c := by
      intro s2
      obtain ⟨ext, hext, hcalls⟩ := syncCart_trace_calls s2 e1
      refine safe_trace_shift e.trace [RemoteCall.addItem v q] _ ext hpre1 ?_ (by rw [hext, he1])
      intro c hc
      rcases hcalls c hc with h | ⟨v', q', h⟩
      · exact Or.inl h
      · exact Or.inr (Or.inr ⟨v', q', h⟩)
    have hcatch1 : ∀ (m : String) (s2 : CartState),
        ∃ ext, (addCatch v q m s2 e1).2.1.trace = e.trace ++ ext ∧ ∀ c ∈ ext, SafeCall c := by
      intro m s2
      obtain ⟨ext, hext, hcalls⟩ := addCatch_trace_calls v q m s2 e1
      exact safe_trace_shift e.trace [RemoteCall.addItem v q] _ ext hpre1
        (fun c hc => hcalls c hc) (by rw [hext, he1])
    cases r with
    | mutationOk o => exact hsync1 _
    | netThrow m => exact hcatch1 m _
    | activeOrder o => exact hcatch1 "TypeError" _
    | mutationErr c0 m =>
      by_cases hstuck : stuckMsg m = true
      · simp only [asMutation, hstuck, if_true]
        cases hr2 : callRemote RemoteCall.resetToAddingItems e1 with
        | mk rr e2 =>
          have he2 : e2.trace = e.trace ++ [RemoteCall.addItem v q,
              RemoteCall.resetToAddingItems] := by
            have := callRemote_trace RemoteCall.resetToAddingItems e1
            rw [hr2] at this; rw [this, he1]; simp
          have hpre2 : ∀ c ∈ [RemoteCall.addItem v q, RemoteCall.resetToAddingItems],
              SafeCall c := by
            intro c hc
            rcases List.mem_cons.mp hc with h | h
            · exact Or.inr (Or.inr ⟨v, q, h⟩)
            · simp only [List.mem_singleton] at h
              exact Or.inr (Or.inl h)
          have hcatch2 : ∀ (m2 : String) (s2 : CartState),
              ∃ ext, (addCatch v q m2 s2 e2).2.1.trace = e.trace ++ ext ∧
                ∀ c ∈ ext, SafeCall c := by
            intro m2 s2
            obtain ⟨ext, hext, hcalls⟩ := addCatch_trace_calls v q m2 s2 e2
            exact safe_trace_shift e.trace
              [RemoteCall.addItem v q, RemoteCall.resetToAddingItems] _ ext hpre2
              (fun c hc => hcalls c hc) (by rw [hext, he2])
          cases rr with
          | netThrow m2 => exact hcatch2 m2 _
          | activeOrder o => exact hcatch2 "TypeError" _
          | mutationOk o =>
            cases hr3 : callRemote (RemoteCall.addItem v q) e2 with
            | mk r3 e3 =>
              have he3 : e3.trace = e.trace ++ [RemoteCall.addItem v q,
                  RemoteCall.resetToAddingItems, RemoteCall.addItem v q] := by
                have := callRemote_trace (RemoteCall.addItem v q) e2
                rw [hr3] at this; rw [this, he2]; simp
              have hpre3 : ∀ c ∈ [RemoteCall.addItem v q, RemoteCall.resetToAddingItems,
                  RemoteCall.addItem v q], SafeCall c := by
                intro c hc
                rcases List.mem_cons.mp hc with h | h
                · exact Or.inr (Or.inr ⟨v, q, h⟩)
                · rcases List.mem_cons.mp h with h' | h'
                  · exact Or.inr (Or.inl h')
                  · simp only [List.mem_singleton] at h'
                    exact Or.inr (Or.inr ⟨v, q, h'⟩)
              have hsync3 : ∀ (s2 : CartState),
                  ∃ ext, (syncCart s2 e3).2.trace = e.trace ++ ext ∧
                    ∀ c ∈ ext, SafeCall c := by
                intro s2
                obtain ⟨ext, hext, hcalls⟩ := syncCart_trace_calls s2 e3
                refine safe_trace_shift e.trace [RemoteCall.addItem v q,
                  RemoteCall.resetToAddingItems, RemoteCall.addItem v q] _ ext hpre3 ?_
                  (by rw [hext, he3])
                intro c hc
                rcases hcalls c hc with h | ⟨v', q', h⟩
                · exact Or.inl h
                · exact Or.inr (Or.inr ⟨v', q', h⟩)
              have hcatch3 : ∀ (m2 : String) (s2 : CartState),
                  ∃ ext, (addCatch v q m2 s2 e3).2.1.trace = e.trace ++ ext ∧
                    ∀ c ∈ ext, SafeCall c := by
                intro m2 s2
                obtain ⟨ext, hext, hcalls⟩ := addCatch_trace_calls v q m2 s2 e3
                exact safe_trace_shift e.trace [RemoteCall.addItem v q,
                  RemoteCall.resetToAddingItems, RemoteCall.addItem v q] _ ext hpre3
                  (fun c hc => hcalls c hc) (by rw [hext, he3])
              cases r3 with
              | mutationOk o2 => exact hsync3 _
              | mutationErr c2 m2 => exact hsync3 _
              | netThrow m2 => exact hcatch3 m2 _
              | activeOrder o2 => exact hcatch3 "TypeError" _
          | mutationErr c2 m2 =>
            cases hr3 : callRemote (RemoteCall.addItem v q) e2 with
            | mk r3 e3 =>
              have he3 : e3.trace = e.trace ++ [RemoteCall.addItem v q,
                  RemoteCall.resetToAddingItems, RemoteCall.addItem v q] := by
                have := callRemote_trace (RemoteCall.addItem v q) e2
                rw [hr3] at this; rw [this, he2]; simp
              have hpre3 : ∀ c ∈ [RemoteCall.addItem v q, RemoteCall.resetToAddingItems,
                  RemoteCall.addItem v q], SafeCall c := by
                intro c hc
                rcases List.mem_cons.mp hc with h | h
                · exact Or.inr (Or.inr ⟨v, q, h⟩)
                · rcases List.mem_cons.mp h with h' | h'
                  · exact Or.inr (Or.inl h')
                  · simp only [List.mem_singleton] at h'
                    exact Or.inr (Or.inr ⟨v, q, h'⟩)
              have hsync3 : ∀ (s2 : CartState),
                  ∃ ext, (syncCart s2 e3).2.trace = e.trace ++ ext ∧
                    ∀ c ∈ ext, SafeCall c := by
                intro s2
                obtain ⟨ext, hext, hcalls⟩ := syncCart_trace_calls s2 e3
                refine safe_trace_shift e.trace [RemoteCall.addItem v q,
                  RemoteCall.resetToAddingItems, RemoteCall.addItem v q] _ ext hpre3 ?_
                  (by rw [hext, he3])
                intro c hc
                rcases hcalls c hc with h | ⟨v', q', h⟩
                · exact Or.inl h
                · exact Or.inr (Or.inr ⟨v', q', h⟩)
              have hcatch3 : ∀ (m2 : String) (s2 : CartState),
                  ∃ ext, (addCatch v q m2 s2 e3).2.1.trace = e.trace ++ ext ∧
                    ∀ c ∈ ext, SafeCall c := by
                intro m2 s2
                obtain ⟨ext, hext, hcalls⟩ := addCatch_trace_calls v q m2 s2 e3
                exact safe_trace_shift e.trace [RemoteCall.addItem v q,
                  RemoteCall.resetToAddingItems, RemoteCall.addItem v q] _ ext hpre3
                  (fun c hc => hcalls c hc) (by rw [hext, he3])
              cases r3 with
              | mutationOk o2 => exact hsync3 _
              | mutationErr c2' m2' => exact hsync3 _
              | netThrow m2 => exact hcatch3 m2 _
              | activeOrder o2 => exact hcatch3 "TypeError" _
      · simp only [asMutation, hstuck, if_false]
        exact hsync1 _

/-- C5 counterexample: when a failed optimistic add cannot be rolled back
because the rollback sync itself throws, the temporary line survives in the
snapshot, and a subsequent remove of that line sends the temporary local id
to the remote client as a line id. -/
theorem c5_temp_id_sent_cex :
    ((addToCart "2" 1 (some prodInfoA) emptyCart
        { script := [RemoteResp.netThrow "network", RemoteResp.netThrow "boom"],
          trace := [], time := 42 }).1.items.map (fun it => it.id) = ["temp-42"]) ∧
    isTempId "temp-42" = true ∧
    (removeFromCart "temp-42"
        (addToCart "2" 1 (some prodInfoA) emptyCart
          { script := [RemoteResp.netThrow "network", RemoteResp.netThrow "boom"],
            trace := [], time := 42 }).1
        { script := [RemoteResp.netThrow "offline"], trace := [], time := 0 }).2.trace =
      [RemoteCall.removeLine "temp-42"] := by
  decide

/-- C5 (amended): the add path never issues a line-keyed mutation at all
(its remote adds are keyed by variant id), ids adopted from the server are
exactly the server line ids, and the line-keyed adjust and remove carry
exactly the id the caller took from the snapshot — remote-assigned after
any successful sync, but a temporary id if a temporary line survived a
failed rollback (the counterexample). -/
theorem c5_temp_id_amended :
    (∀ (v : String) (q : Int) (info : Option ProdInfo) (s : CartState) (e : Env),
      ∃ ext, (addToCart v q info s e).2.1.trace = e.trace ++ ext ∧ ∀ c ∈ ext, SafeCall c) ∧
    (∀ (o : Order) (s : CartState),
      (adoptOrder o s).items.map (fun it => it.id) = o.lines.map (fun l => l.id)) ∧
    (∀ (lid : String) (q : Int) (s : CartState) (e : Env),
      ∃ ext, (updateQuantity lid q s e).2.trace =
          e.trace ++ (if q ≤ 0 then RemoteCall.removeLine lid
            else RemoteCall.adjustLine lid q) :: ext ∧
        ∀ c ∈ ext, c = RemoteCall.getActiveOrder ∨ ∃ v' q', c = RemoteCall.addItem v' q') ∧
    (∀ (lid : String) (s : CartState) (e : Env),
      ∃ ext, (removeFromCart lid s e).2.trace = e.trace ++ RemoteCall.removeLine lid :: ext ∧
        ∀ c ∈ ext, c = RemoteCall.getActiveOrder ∨ ∃ v' q', c = RemoteCall.addItem v' q') := by
  refine ⟨addToCart_trace_calls, adoptOrder_ids, ?_, ?_⟩
  · intro lid q s e
    rw [updateQuantity_eq]
    obtain ⟨ext, hext, hcalls⟩ :=
      syncCart_trace_calls (applyOptimisticUpdate lid q s)
        (callRemote (if q ≤ 0 then RemoteCall.removeLine lid
          else RemoteCall.adjustLine lid q) e).2
    refine ⟨ext, ?_, hcalls⟩
    rw [hext, callRemote_trace]
    simp
  · intro lid s e
    unfold removeFromCart
    cases hr : callRemote (RemoteCall.removeLine lid) e with
    | mk r e1 =>
      have he1 : e1.trace = e.trace ++ [RemoteCall.removeLine lid] := by
        have := callRemote_trace (RemoteCall.removeLine lid) e
        rw [hr] at this; exact this
      have hsync : ∃ ext, (syncCart (applyOptimisticRemove lid s) e1).2.trace =
          e.trace ++ RemoteCall.removeLine lid :: ext ∧
          ∀ c ∈ ext, c = RemoteCall.getActiveOrder ∨ ∃ v' q', c = RemoteCall.addItem v' q' := by
        obtain ⟨ext, hext, hcalls⟩ := syncCart_trace_calls (applyOptimisticRemove lid s) e1
        refine ⟨ext, ?_, hcalls⟩
        rw [hext, he1]; simp
      cases r with
      | netThrow m =>
        cases h2 : removedItemOf lid s with
        | some it =>
          refine ⟨[], ?_, ?_⟩
          · simp only [h2]; rw [he1]
          · intro c hc; simp at hc
        | none =>
          refine ⟨[], ?_, ?_⟩
          · simp only [h2]; rw [he1]
          · intro c hc; simp at hc
      | activeOrder o => exact hsync
      | mutationOk o => exact hsync
      | mutationErr c0 m => exact hsync

/-- Witness for the amended id discipline at concrete runs: the remote
remove carries exactly the snapshot line id, and adoption of a server order
installs the server line ids. -/
theorem c5_temp_id_amended_witness :
    (∃ ext, (removeFromCart "L1" cartAB
        { script := [], trace := [], time := 0 }).2.trace =
        [] ++ RemoteCall.removeLine "L1" :: ext ∧
      ∀ c ∈ ext, c = RemoteCall.getActiveOrder ∨ ∃ v' q', c = RemoteCall.addItem v' q') ∧
    (adoptOrder orderA1 emptyCart).items.map (fun it => it.id) =
      orderA1.lines.map (fun l => l.id) :=
  ⟨c5_temp_id_amended.2.2.2 "L1" cartAB { script := [], trace := [], time := 0 },
   c5_temp_id_amended.2.1 orderA1 emptyCart⟩

/-- The restore continuation against a script holding one response per
replayed item followed by the re-fetch response: every item is replayed
regardless of the individual responses, and the re-fetched order, when
present, is adopted. -/
theorem syncRestore_replay_spec (s : CartState) (e : Env) (rs : List RemoteResp)
    (r2 : RemoteResp) (rest2 : List RemoteResp)
    (hne : itemsToRestoreOf s ≠ [])
    (hs : e.script = rs ++ r2 :: rest2)
    (hlen : rs.length = (itemsToRestoreOf s).length) :
    (syncRestore s e).2.trace =
        e.trace ++ (itemsToRestoreOf s).map (fun i => RemoteCall.addItem i.variantId i.quantity)
          ++ [RemoteCall.getActiveOrder] ∧
      (∀ o, r2 = RemoteResp.activeOrder (some o) → (syncRestore s e).1 = adoptOrder o s) ∧
      (r2 = RemoteResp.activeOrder none → (syncRestore s e).1 = s) := by
  have hresF : (itemsToRestoreOf s).isEmpty = false := by
    cases hit : itemsToRestoreOf s with
    | nil => exact absurd hit hne
    | cons a l => rfl
  have hscript2 : (replayItems (itemsToRestoreOf s) e).script = r2 :: rest2 := by
    rw [replayItems_script, hs, ← hlen, List.drop_left]
  have htrace2 : (replayItems (itemsToRestoreOf s) e).trace =
      e.trace ++ (itemsToRestoreOf s).map (fun i => RemoteCall.addItem i.variantId i.quantity) :=
    replayItems_trace _ _
  unfold syncRestore
  simp only [hresF, Bool.false_eq_true, if_false]
  cases hcr : callRemote RemoteCall.getActiveOrder (replayItems (itemsToRestoreOf s) e) with
  | mk rr ee =>
    have hrr : rr = r2 := by
      have := callRemote_resp RemoteCall.getActiveOrder _ r2 rest2 hscript2
      rw [hcr] at this; exact this
    have hee : ee.trace = e.trace ++
        (itemsToRestoreOf s).map (fun i => RemoteCall.addItem i.variantId i.quantity) ++
        [RemoteCall.getActiveOrder] := by
      have := callRemote_trace RemoteCall.getActiveOrder (replayItems (itemsToRestoreOf s) e)
      rw [hcr] at this
      rw [this, htrace2]
    subst hrr
    refine ⟨?_, ?_, ?_⟩
    · cases rr with
      | activeOrder o => cases o <;> simpa [asActiveOrder] using hee
      | mutationOk o => simpa [asActiveOrder] using hee
      | mutationErr c m => simpa [asActiveOrder] using hee
      | netThrow m => simpa [asActiveOrder] using hee
    · intro o ho
      subst ho
      simp [asActiveOrder]
    · intro ho
      subst ho
      simp [asActiveOrder]

/-- C6: when sync finds no active order, every restorable item (stored
record, or the in-memory snapshot as fallback) is replayed as one remote
variant-keyed add, whatever the per-item responses, and the order is then
re-fetched: a re-fetched order is adopted as the new local state, a
re-fetch still reporting no order leaves the state unchanged; with nothing
to restore, the cart becomes authoritatively empty and the persisted record
is cleared. -/
theorem c6_sync_restore_replay :
    (∀ (s : CartState) (e : Env) (rs : List RemoteResp) (r2 : RemoteResp)
        (rest2 : List RemoteResp),
      itemsToRestoreOf s ≠ [] →
      e.script = RemoteResp.activeOrder none :: (rs ++ r2 :: rest2) →
      rs.length = (itemsToRestoreOf s).length →
      (syncCart s e).2.trace =
          e.trace ++ RemoteCall.getActiveOrder ::
            ((itemsToRestoreOf s).map (fun i => RemoteCall.addItem i.variantId i.quantity) ++
              [RemoteCall.getActiveOrder]) ∧
        (∀ o, r2 = RemoteResp.activeOrder (some o) → (syncCart s e).1 = adoptOrder o s) ∧
        (r2 = RemoteResp.activeOrder none → (syncCart s e).1 = s)) ∧
    (∀ (s : CartState) (e : Env) (rest : List RemoteResp),
      itemsToRestoreOf s = [] →
      e.script = RemoteResp.activeOrder none :: rest →
      syncCart s e =
        ({ s with items := [], total := 0, quantity := 0, storage := none },
         { e with script := rest, trace := e.trace ++ [RemoteCall.getActiveOrder] })) := by
  constructor
  · intro s e rs r2 rest2 hne hs hlen
    rw [syncCart_noOrder s hs]
    have := syncRestore_replay_spec s
      { e with script := rs ++ r2 :: rest2, trace := e.trace ++ [RemoteCall.getActiveOrder] }
      rs r2 rest2 hne rfl hlen
    refine ⟨?_, this.2.1, this.2.2⟩
    rw [this.1]
    simp
  · intro s e rest hempty hs
    rw [syncCart_noOrder s hs,
      syncRestore_empty s _ (by rw [hempty]; rfl)]
    rfl

/-- A cart whose storage record still holds item A while the in-memory
snapshot is empty. -/
def storedOnlyCart : CartState :=
  { items := [], total := 0, quantity := 0, storage := some [itemA], isCartOpen := false }

/-- Witness for the restore behavior at concrete runs: one stored item is
replayed even though its add fails, the re-fetched order is adopted, and a
cart with nothing to restore is cleared. -/
theorem c6_sync_restore_replay_witness :
    ((syncCart storedOnlyCart
        { script := [RemoteResp.activeOrder none,
            RemoteResp.netThrow "restore failed",
            RemoteResp.activeOrder (some orderA1)],
          trace := [], time := 0 }).2.trace =
      [RemoteCall.getActiveOrder, RemoteCall.addItem "2" 1, RemoteCall.getActiveOrder]) ∧
    ((syncCart storedOnlyCart
        { script := [RemoteResp.activeOrder none,
            RemoteResp.netThrow "restore failed",
            RemoteResp.activeOrder (some orderA1)],
          trace := [], time := 0 }).1 =
      adoptOrder orderA1 storedOnlyCart) ∧
    (syncCart emptyCart
        { script := [RemoteResp.activeOrder none], trace := [], time := 0 }).1.storage = none := by
  have h := c6_sync_restore_replay.1 storedOnlyCart
    { script := [RemoteResp.activeOrder none,
        RemoteResp.netThrow "restore failed",
        RemoteResp.activeOrder (some orderA1)],
      trace := [], time := 0 }
    [RemoteResp.netThrow "restore failed"] (RemoteResp.activeOrder (some orderA1)) []
    (by decide) rfl (by decide)
  have h2 := c6_sync_restore_replay.2 emptyCart
    { script := [RemoteResp.activeOrder none], trace := [], time := 0 } [] (by decide) rfl
  refine ⟨?_, h.2.1 orderA1 rfl, by rw [h2]⟩
  rw [h.1]
  decide

/-- C7: on every response the query wrapper persists the header credential
when one is present and keeps the stored one otherwise; it fails if and only
if the GraphQL errors list is non-empty, carrying the first error message
(or the fixed fallback text when that message is empty), and otherwise
returns the data payload. -/
theorem c7_query_token_and_errors {D : Type} (stored : Option String)
    (resp : GqlResponse D) :
    ((query stored resp).1 =
      match resp.authHeader with
      | some t => some t
      | none => stored) ∧
    ((∃ m, (query stored resp).2 = Except.error m) ↔ resp.errors ≠ []) ∧
    (resp.errors = [] → (query stored resp).2 = Except.ok resp.payload) ∧
    (∀ m rest, resp.errors = m :: rest →
      (query stored resp).2 =
        Except.error (if m = "" then "Unknown GraphQL error" else m)) := by
  refine ⟨?_, ⟨?_, ?_⟩, ?_, ?_⟩
  · unfold query
    cases he : resp.errors with
    | nil => simp
    | cons m rest => simp [List.isEmpty_cons]
  · intro ⟨m, hm⟩
    intro hnil
    unfold query at hm
    rw [hnil] at hm
    simp at hm
  · intro hne
    cases he : resp.errors with
    | nil => exact absurd he hne
    | cons m rest =>
      refine ⟨if m = "" then "Unknown GraphQL error" else m, ?_⟩
      unfold query
      simp [he, List.isEmpty_cons, jsOrStr]
  · intro hnil
    unfold query
    simp [hnil]
  · intro m rest he
    unfold query
    simp [he, List.isEmpty_cons, jsOrStr]

/-- A concrete erroring response carrying a rotated credential. -/
def respWithError : GqlResponse Nat :=
  { authHeader := some "fresh", payload := some 7, errors := ["order not found"] }

/-- A concrete successful response without a credential header. -/
def respWithData : GqlResponse Nat :=
  { authHeader := none, payload := some 7, errors := [] }

/-- Witness for the query contract at concrete responses: a rotated
credential is persisted even on an erroring response, and the error carries
the first message. -/
theorem c7_query_token_and_errors_witness :
    (query (some "old") respWithError).1 = some "fresh" ∧
    (query (some "old") respWithError).2 = Except.error "order not found" ∧
    (query none respWithData).2 = Except.ok (some 7) := by
  refine ⟨?_, ?_, ?_⟩
  · exact (c7_query_token_and_errors (some "old") respWithError).1
  · have h := (c7_query_token_and_errors (some "old") respWithError).2.2.2
      "order not found" [] rfl
    simpa using h
  · exact (c7_query_token_and_errors none respWithData).2.2.1 rfl

/-- The poll makes at most one active-order fetch per unit of its budget. -/
theorem pollLoop_trace_length (fuel : Nat) (e : Env) :
    (pollLoop fuel e).2.trace.length ≤ e.trace.length + fuel := by
  induction fuel generalizing e with
  | zero => simp [pollLoop]
  | succ n ih =>
    unfold pollLoop
    cases hc : callRemote RemoteCall.getActiveOrder e with
    | mk r e1 =>
      have hlen : e1.trace.length = e.trace.length + 1 := by
        have h2 : e1.trace = e.trace ++ [RemoteCall.getActiveOrder] := by
          have := callRemote_trace RemoteCall.getActiveOrder e
          rw [hc] at this
          exact this
        rw [h2]
        simp
      cases r with
      | netThrow m => simp [asActiveOrder]; omega
      | activeOrder o =>
        by_cases hsig : isCompleteSignal o = true
        · simp [asActiveOrder, hsig]; omega
        · have := ih e1
          simp only [asActiveOrder, hsig, Bool.false_eq_true, if_false]
          omega
      | mutationOk o =>
        by_cases hsig : isCompleteSignal none = true
        · simp [asActiveOrder, hsig]; omega
        · have := ih e1
          simp only [asActiveOrder, hsig, Bool.false_eq_true, if_false]
          omega
      | mutationErr c m =>
        by_cases hsig : isCompleteSignal none = true
        · simp [asActiveOrder, hsig]; omega
        · have := ih e1
          simp only [asActiveOrder, hsig, Bool.false_eq_true, if_false]
          omega

/-- One poll step that observes a completion signal stops immediately. -/
theorem pollLoop_stop (fuel : Nat) (e : Env) (o : Option Order) (rest : List RemoteResp)
    (hs : e.script = RemoteResp.activeOrder o :: rest) (ho : isCompleteSignal o = true) :
    pollLoop (fuel + 1) e =
      (Except.ok (),
       { e with script := rest, trace := e.trace ++ [RemoteCall.getActiveOrder] }) := by
  unfold pollLoop
  simp [callRemote, hs, asActiveOrder, ho]

/-- A poll that only ever observes a still-arranging order exhausts its
whole budget and exits successfully anyway. -/
theorem pollLoop_exhaust (n : Nat) (o : Order) (ho : isCompleteSignal (some o) = false) :
    ∀ (tr : List RemoteCall) (tm : Nat) (rest : List RemoteResp),
      pollLoop n
        { script := List.replicate n (RemoteResp.activeOrder (some o)) ++ rest,
          trace := tr, time := tm } =
      (Except.ok (),
       { script := rest, trace := tr ++ List.replicate n RemoteCall.getActiveOrder,
         time := tm }) := by
  induction n with
  | zero => intro tr tm rest; simp [pollLoop]
  | succ n ih =>
    intro tr tm rest
    unfold pollLoop
    simp only [List.replicate_succ, List.cons_append, callRemote, asActiveOrder, ho,
      Bool.false_eq_true, if_false]
    rw [ih (tr ++ [RemoteCall.getActiveOrder]) tm rest]
    simp [List.replicate_succ, List.append_assoc]

/-- C8: the payment-confirmation poll is bounded by the fixed ten-attempt
budget (each attempt one active-order fetch), it stops at the first fetch
observing no active order or an explicitly settled or authorized state, and
when every fetch in the budget still reports an unfinished order the state
machine proceeds to the Confirmed step with the payment widget destroyed
anyway. -/
theorem c8_poll_bounded_optimistic :
    (∀ (fuel : Nat) (e : Env),
      (pollLoop fuel e).2.trace.length ≤ e.trace.length + fuel) ∧
    (∀ (e : Env) (o : Option Order) (rest : List RemoteResp),
      e.script = RemoteResp.activeOrder o :: rest → isCompleteSignal o = true →
      pollLoop maxAttempts e =
        (Except.ok (),
         { e with script := rest, trace := e.trace ++ [RemoteCall.getActiveOrder] })) ∧
    (∀ (c : CheckoutState) (cart : CartState) (o : Order) (rest : List RemoteResp) (tm : Nat),
      isCompleteSignal (some o) = false →
      (completeOrder ⟨true, false, none⟩ c cart
          { script := List.replicate maxAttempts (RemoteResp.activeOrder (some o)) ++ rest,
            trace := [], time := tm }).1.step = 4 ∧
      (completeOrder ⟨true, false, none⟩ c cart
          { script := List.replicate maxAttempts (RemoteResp.activeOrder (some o)) ++ rest,
            trace := [], time := tm }).1.paymentElement = false) := by
  refine ⟨pollLoop_trace_length, ?_, ?_⟩
  · intro e o rest hs ho
    exact pollLoop_stop 9 e o rest hs ho
  · intro c cart o rest tm ho
    have hp := pollLoop_exhaust maxAttempts o ho [] tm rest
    unfold completeOrder
    rw [hp]
    exact ⟨rfl, rfl⟩

/-- Witness for the poll bound at concrete runs: a first fetch reporting no
active order stops the poll after one call, and a budget exhausted on a
still-arranging order still reaches the Confirmed step. -/
theorem c8_poll_bounded_optimistic_witness :
    pollLoop maxAttempts
        { script := [RemoteResp.activeOrder none], trace := [], time := 0 } =
      (Except.ok (), { script := [], trace := [RemoteCall.getActiveOrder], time := 0 }) ∧
    (completeOrder ⟨true, false, none⟩
        { step := 3, isCheckoutOpen := true, checkoutError := "",
          paymentElement := true, addressElement := false }
        emptyCart
        { script := List.replicate maxAttempts (RemoteResp.activeOrder (some arrangingOrder)),
          trace := [], time := 0 }).1.step = 4 := by
  constructor
  · have h := c8_poll_bounded_optimistic.2.1
      { script := [RemoteResp.activeOrder none], trace := [], time := 0 }
      none [] rfl (by decide)
    simpa using h
  · have h := (c8_poll_bounded_optimistic.2.2
      { step := 3, isCheckoutOpen := true, checkoutError := "",
        paymentElement := true, addressElement := false }
      emptyCart arrangingOrder [] 0 (by decide)).1
    simpa using h

/-- A completed Stripe session whose metadata carries the order code. -/
def sessionABC : StripeSession :=
  { id := "cs_1", paymentIntent := some "pi_1", orderCode := some "ABC",
    hasShippingAddress := true }

/-- The admin view of the order already settled by a first delivery. -/
def settledAdminOrder : AdminOrder :=
  { id := "7", code := "ABC", state := "PaymentSettled" }

/-- The admin view of the order still arranging payment. -/
def arrangingAdminOrder : AdminOrder :=
  { id := "7", code := "ABC", state := "ArrangingPayment" }

/-- C9 counterexample: on a second delivery with the order already settled,
the handler never submits the duplicate payment record at all — the state
gate admits only AddingItems and ArrangingPayment — yet it still returns the
received acknowledgment; so no platform rejection of a duplicate submission
occurs or is logged on this path. -/
theorem c9_settled_skips_payment_cex :
    webhookHandler sessionABC
        { script := [AdminResp.loginOk "tok", AdminResp.orders [settledAdminOrder]],
          trace := [] } =
      Except.ok (true,
        { script := [], trace := [AdminCall.login, AdminCall.getOrderByCode "ABC"] }) ∧
    (∀ oid tx, AdminCall.addManualPaymentToOrder oid tx ∉
      [AdminCall.login, AdminCall.getOrderByCode "ABC"]) := by
  constructor
  · rfl
  · intro oid tx h
    simp at h

/-- C9 (amended): a delivery finding the order in any state other than
AddingItems or ArrangingPayment skips the payment-record submission and
still acknowledges with received true; a delivery finding the order in
ArrangingPayment submits the payment record keyed by the Stripe transaction
id and, whatever result payload the platform returns for it — including a
rejection error — still acknowledges with received true. -/
theorem c9_webhook_duplicate_amended :
    (∀ (session : StripeSession) (e : AdminEnv) (code tok : String) (o : AdminOrder)
        (os : List AdminOrder) (rest : List AdminResp),
      session.orderCode = some code →
      e.script = AdminResp.loginOk tok :: AdminResp.orders (o :: os) :: rest →
      o.state ≠ "AddingItems" → o.state ≠ "ArrangingPayment" →
      webhookHandler session e =
        Except.ok (true,
          { script := rest,
            trace := e.trace ++ [AdminCall.login, AdminCall.getOrderByCode code] })) ∧
    (∀ (session : StripeSession) (e : AdminEnv) (code tok : String) (o : AdminOrder)
        (os : List AdminOrder) (st errCode : Option String) (rest : List AdminResp),
      session.orderCode = some code →
      e.script = AdminResp.loginOk tok :: AdminResp.orders (o :: os) ::
        AdminResp.payment st errCode :: rest →
      o.state = "ArrangingPayment" →
      webhookHandler session e =
        Except.ok (true,
          { script := rest,
            trace := e.trace ++ [AdminCall.login, AdminCall.getOrderByCode code,
              AdminCall.addManualPaymentToOrder o.id
                (jsOrStr session.paymentIntent session.id)] })) := by
  constructor
  · intro session e code tok o os rest hcode hs h1 h2
    have hb1 : (o.state == "AddingItems") = false := by
      rw [beq_eq_false_iff_ne]; exact h1
    have hb2 : (o.state == "ArrangingPayment") = false := by
      rw [beq_eq_false_iff_ne]; exact h2
    unfold webhookHandler handleCheckoutComplete
    rw [hcode]
    simp [callAdmin, hs, hb1, hb2]
  · intro session e code tok o os st errCode rest hcode hs harr
    have hb1 : (o.state == "AddingItems") = false := by
      rw [beq_eq_false_iff_ne, harr]
      intro h; exact absurd h (by decide)
    have hb2 : (o.state == "ArrangingPayment") = true := by
      rw [beq_iff_eq]; exact harr
    unfold webhookHandler handleCheckoutComplete
    rw [hcode]
    simp [callAdmin, hs, hb1, hb2]

/-- Witness for the amended idempotency behavior: a duplicate delivery that
reaches the payment submission while the order is still arranging payment
and is rejected by the platform still acknowledges with received true. -/
theorem c9_webhook_duplicate_amended_witness :
    webhookHandler sessionABC
        { script := [AdminResp.loginOk "tok", AdminResp.orders [arrangingAdminOrder],
            AdminResp.payment none (some "MANUAL_PAYMENT_STATE_ERROR")],
          trace := [] } =
      Except.ok (true,
        { script := [],
          trace := [AdminCall.login, AdminCall.getOrderByCode "ABC",
            AdminCall.addManualPaymentToOrder "7" "pi_1"] }) := by
  have h := c9_webhook_duplicate_amended.2 sessionABC
    { script := [AdminResp.loginOk "tok", AdminResp.orders [arrangingAdminOrder],
        AdminResp.payment none (some "MANUAL_PAYMENT_STATE_ERROR")],
      trace := [] }
    "ABC" "tok" arrangingAdminOrder [] none (some "MANUAL_PAYMENT_STATE_ERROR") []
    rfl rfl rfl
  simpa using h

/-- A cart holding exactly the server-confirmed item A, mirrored to
storage, while the remote order is still active. -/
def cartA1 : CartState :=
  { items := [itemA], total := 1799, quantity := 1, storage := some [itemA],
    isCartOpen := true }

/-- C10: the persisted record is never overwritten with an empty list — the
save writes only when the in-memory list is non-empty — so removing the
last item while the remote order is still active leaves the removed item in
storage, and a later sync that finds no active order replays that stale
stored item as a remote add. -/
theorem c10_storage_retains_stale_items :
    (∀ s : CartState, s.items = [] → saveToStorage s = s) ∧
    ((removeFromCart "L1" cartA1
        { script := [RemoteResp.mutationOk emptyOrder,
            RemoteResp.activeOrder (some emptyOrder)],
          trace := [], time := 0 }).1.items = [] ∧
      (removeFromCart "L1" cartA1
        { script := [RemoteResp.mutationOk emptyOrder,
            RemoteResp.activeOrder (some emptyOrder)],
          trace := [], time := 0 }).1.storage = some [itemA]) ∧
    (syncCart
        (removeFromCart "L1" cartA1
          { script := [RemoteResp.mutationOk emptyOrder,
              RemoteResp.activeOrder (some emptyOrder)],
            trace := [], time := 0 }).1
        { script := [RemoteResp.activeOrder none, RemoteResp.mutationOk orderA1,
            RemoteResp.activeOrder (some orderA1)],
          trace := [], time := 0 }).2.trace =
      [RemoteCall.getActiveOrder, RemoteCall.addItem "2" 1, RemoteCall.getActiveOrder] := by
  refine ⟨?_, by decide, by decide⟩
  intro s h
  unfold saveToStorage
  simp [h]

/-- Witness for the save guard at a concrete empty cart. -/
theorem c10_storage_retains_stale_items_witness :
    saveToStorage emptyCart = emptyCart :=
  c10_storage_retains_stale_items.1 emptyCart rfl
